import Mathlib

/-!
Verification of the tamper-evident audit core of the audit-trail-ai
backend (src/backend/app): the canonical hashing scheme
(services/hasher.py), the Merkle engine and anchor state machine
(services/blockchain_service.py), the tombstone protocol
(services/gdpr_service.py) and the integrity verifier
(routers/verify.py), as a shallow embedding in Lean 4.

Machine integers are modelled as Nat with explicit reduction mod 2^64
where the Python code relies on 64-bit lane arithmetic (inside SHA3).
Fallible code returns Option/Except.  All definitions are executable;
recursion that the kernel must evaluate is structural (fuel-based where
the Python loop is not structurally recursive).
-/

set_option maxRecDepth 1000000

namespace AuditTrailAI

/-! ### SHA3-256 (the `hashlib.sha3_256` primitive used by HashService)

`HashService.HASH_ALGORITHM = hashlib.sha3_256` (services/hasher.py line 19).
The Keccak permutation is implemented over `Nat` with every lane kept
below `2 ^ 64`. Bytes are `Nat` values below 256. -/

def mask64 : Nat := 0xFFFFFFFFFFFFFFFF

/-- Rotate a 64-bit lane left by `k` (0 ≤ k < 64). -/
def rotl64 (n k : Nat) : Nat :=
  ((n <<< k) ||| (n >>> (64 - k))) % 2 ^ 64

/-- One Keccak-f[1600] round: θ, ρ, π, χ and ι with round constant `rc`.
The 25 lanes are indexed by `x + 5 * y`. -/
def keccakRound (rc : Nat) (s : List Nat) : List Nat :=
  let a0 := s.getD 0 0
  let a1 := s.getD 1 0
  let a2 := s.getD 2 0
  let a3 := s.getD 3 0
  let a4 := s.getD 4 0
  let a5 := s.getD 5 0
  let a6 := s.getD 6 0
  let a7 := s.getD 7 0
  let a8 := s.getD 8 0
  let a9 := s.getD 9 0
  let a10 := s.getD 10 0
  let a11 := s.getD 11 0
  let a12 := s.getD 12 0
  let a13 := s.getD 13 0
  let a14 := s.getD 14 0
  let a15 := s.getD 15 0
  let a16 := s.getD 16 0
  let a17 := s.getD 17 0
  let a18 := s.getD 18 0
  let a19 := s.getD 19 0
  let a20 := s.getD 20 0
  let a21 := s.getD 21 0
  let a22 := s.getD 22 0
  let a23 := s.getD 23 0
  let a24 := s.getD 24 0
  let c0 := a0 ^^^ a5 ^^^ a10 ^^^ a15 ^^^ a20
  let c1 := a1 ^^^ a6 ^^^ a11 ^^^ a16 ^^^ a21
  let c2 := a2 ^^^ a7 ^^^ a12 ^^^ a17 ^^^ a22
  let c3 := a3 ^^^ a8 ^^^ a13 ^^^ a18 ^^^ a23
  let c4 := a4 ^^^ a9 ^^^ a14 ^^^ a19 ^^^ a24
  let d0 := c4 ^^^ rotl64 c1 1
  let d1 := c0 ^^^ rotl64 c2 1
  let d2 := c1 ^^^ rotl64 c3 1
  let d3 := c2 ^^^ rotl64 c4 1
  let d4 := c3 ^^^ rotl64 c0 1
  let b0 := a0 ^^^ d0
  let b1 := rotl64 (a6 ^^^ d1) 44
  let b2 := rotl64 (a12 ^^^ d2) 43
  let b3 := rotl64 (a18 ^^^ d3) 21
  let b4 := rotl64 (a24 ^^^ d4) 14
  let b5 := rotl64 (a3 ^^^ d3) 28
  let b6 := rotl64 (a9 ^^^ d4) 20
  let b7 := rotl64 (a10 ^^^ d0) 3
  let b8 := rotl64 (a16 ^^^ d1) 45
  let b9 := rotl64 (a22 ^^^ d2) 61
  let b10 := rotl64 (a1 ^^^ d1) 1
  let b11 := rotl64 (a7 ^^^ d2) 6
  let b12 := rotl64 (a13 ^^^ d3) 25
  let b13 := rotl64 (a19 ^^^ d4) 8
  let b14 := rotl64 (a20 ^^^ d0) 18
  let b15 := rotl64 (a4 ^^^ d4) 27
  let b16 := rotl64 (a5 ^^^ d0) 36
  let b17 := rotl64 (a11 ^^^ d1) 10
  let b18 := rotl64 (a17 ^^^ d2) 15
  let b19 := rotl64 (a23 ^^^ d3) 56
  let b20 := rotl64 (a2 ^^^ d2) 62
  let b21 := rotl64 (a8 ^^^ d3) 55
  let b22 := rotl64 (a14 ^^^ d4) 39
  let b23 := rotl64 (a15 ^^^ d0) 41
  let b24 := rotl64 (a21 ^^^ d1) 2
  let e0 := (b0 ^^^ ((b1 ^^^ mask64) &&& b2)) ^^^ rc
  let e1 := b1 ^^^ ((b2 ^^^ mask64) &&& b3)
  let e2 := b2 ^^^ ((b3 ^^^ mask64) &&& b4)
  let e3 := b3 ^^^ ((b4 ^^^ mask64) &&& b0)
  let e4 := b4 ^^^ ((b0 ^^^ mask64) &&& b1)
  let e5 := b5 ^^^ ((b6 ^^^ mask64) &&& b7)
  let e6 := b6 ^^^ ((b7 ^^^ mask64) &&& b8)
  let e7 := b7 ^^^ ((b8 ^^^ mask64) &&& b9)
  let e8 := b8 ^^^ ((b9 ^^^ mask64) &&& b5)
  let e9 := b9 ^^^ ((b5 ^^^ mask64) &&& b6)
  let e10 := b10 ^^^ ((b11 ^^^ mask64) &&& b12)
  let e11 := b11 ^^^ ((b12 ^^^ mask64) &&& b13)
  let e12 := b12 ^^^ ((b13 ^^^ mask64) &&& b14)
  let e13 := b13 ^^^ ((b14 ^^^ mask64) &&& b10)
  let e14 := b14 ^^^ ((b10 ^^^ mask64) &&& b11)
  let e15 := b15 ^^^ ((b16 ^^^ mask64) &&& b17)
  let e16 := b16 ^^^ ((b17 ^^^ mask64) &&& b18)
  let e17 := b17 ^^^ ((b18 ^^^ mask64) &&& b19)
  let e18 := b18 ^^^ ((b19 ^^^ mask64) &&& b15)
  let e19 := b19 ^^^ ((b15 ^^^ mask64) &&& b16)
  let e20 := b20 ^^^ ((b21 ^^^ mask64) &&& b22)
  let e21 := b21 ^^^ ((b22 ^^^ mask64) &&& b23)
  let e22 := b22 ^^^ ((b23 ^^^ mask64) &&& b24)
  let e23 := b23 ^^^ ((b24 ^^^ mask64) &&& b20)
  let e24 := b24 ^^^ ((b20 ^^^ mask64) &&& b21)
  [e0, e1, e2, e3, e4, e5, e6, e7, e8, e9, e10, e11, e12,
   e13, e14, e15, e16, e17, e18, e19, e20, e21, e22, e23, e24]

/-- The 24 Keccak round constants. -/
def keccakRC : List Nat :=
  [0x0000000000000001, 0x0000000000008082, 0x800000000000808a, 0x8000000080008000,
   0x000000000000808b, 0x0000000080000001, 0x8000000080008081, 0x8000000000008009,
   0x000000000000008a, 0x0000000000000088, 0x0000000080008009, 0x000000008000000a,
   0x000000008000808b, 0x800000000000008b, 0x8000000000008089, 0x8000000000008003,
   0x8000000000008002, 0x8000000000000080, 0x000000000000800a, 0x800000008000000a,
   0x8000000080008081, 0x8000000000008080, 0x0000000080000001, 0x8000000080008008]

/-- The full Keccak-f[1600] permutation (24 rounds). -/
def keccakF (s : List Nat) : List Nat :=
  keccakRC.foldl (fun st rc => keccakRound rc st) s

/-- Group a byte list into 64-bit lanes, little-endian (8 bytes per lane). -/
def bytesToLanes : List Nat → List Nat
  | b0 :: b1 :: b2 :: b3 :: b4 :: b5 :: b6 :: b7 :: rest =>
      (b0 + 2 ^ 8 * b1 + 2 ^ 16 * b2 + 2 ^ 24 * b3 + 2 ^ 32 * b4 + 2 ^ 40 * b5 +
        2 ^ 48 * b6 + 2 ^ 56 * b7) :: bytesToLanes rest
  | _ => []

/-- Split a 64-bit lane into 8 bytes, little-endian. -/
def laneToBytes (n : Nat) : List Nat :=
  [n % 256, n / 2 ^ 8 % 256, n / 2 ^ 16 % 256, n / 2 ^ 24 % 256,
   n / 2 ^ 32 % 256, n / 2 ^ 40 % 256, n / 2 ^ 48 % 256, n / 2 ^ 56 % 256]

/-- Absorb one 136-byte block (SHA3-256 rate) into the sponge state. -/
def absorbBlock (st : List Nat) (block : List Nat) : List Nat :=
  let lanes := bytesToLanes block ++ List.replicate 8 0
  keccakF (List.zipWith (fun a b => a ^^^ b) st lanes)

/-- SHA3 padding (domain byte 0x06, final bit 0x80) to a multiple of 136 bytes. -/
def sha3Pad (msg : List Nat) : List Nat :=
  let r := msg.length % 136
  if r = 135 then msg ++ [0x86]
  else msg ++ 0x06 :: List.replicate (134 - r) 0 ++ [0x80]

/-- Cut a byte list into 136-byte blocks (fuel-based so the kernel can reduce it). -/
def chunks136F : Nat → List Nat → List (List Nat)
  | 0, _ => []
  | _, [] => []
  | fuel + 1, l => l.take 136 :: chunks136F fuel (l.drop 136)

def chunks136 (l : List Nat) : List (List Nat) :=
  chunks136F l.length l

/-- SHA3-256 digest of a byte message: 32 output bytes. -/
def sha3_256_bytes (msg : List Nat) : List Nat :=
  let final := (chunks136 (sha3Pad msg)).foldl absorbBlock (List.replicate 25 0)
  (final.take 4).flatMap laneToBytes

/-- UTF-8 encoding of one Unicode code point. -/
def utf8Char (c : Nat) : List Nat :=
  if c < 0x80 then [c]
  else if c < 0x800 then [0xC0 + c / 64, 0x80 + c % 64]
  else if c < 0x10000 then [0xE0 + c / 4096, 0x80 + c / 64 % 64, 0x80 + c % 64]
  else [0xF0 + c / 262144, 0x80 + c / 4096 % 64, 0x80 + c / 64 % 64, 0x80 + c % 64]

/-- The UTF-8 encoding of a string (Python's `str.encode("utf-8")`). -/
def utf8Encode (s : String) : List Nat :=
  s.toList.flatMap (fun c => utf8Char c.toNat)

/-- Lowercase hexadecimal digit for a value below 16. -/
def hexChar (n : Nat) : Char :=
  if n < 10 then Char.ofNat (48 + n) else Char.ofNat (87 + n)

/-- Lowercase hex rendering of a byte list (Python's `.hexdigest()`). -/
def hexDigest (bytes : List Nat) : String :=
  String.mk (bytes.flatMap (fun b => [hexChar (b / 16), hexChar (b % 16)]))

/-! ### Canonical JSON

`HashService.hash_dict` (services/hasher.py lines 36-41) serializes a
dictionary with `json.dumps(data, sort_keys=True, separators=(',', ':'),
ensure_ascii=False)`.  JSON values are modelled by a mutual inductive
(`Json` / `JsonArr` / `JsonObj`) so that serialization is structurally
recursive and kernel-computable.  A `JsonObj` is the insertion-ordered
entry list of a Python dict.  `sort_keys=True` sorts the items of every
object by key; Python compares strings by code points, which coincides
with the `List.lt` order on the code-point lists. -/

mutual

inductive Json where
  | null : Json
  | bool : Bool → Json
  | num : Int → Json
  | str : String → Json
  | arr : JsonArr → Json
  | obj : JsonObj → Json

inductive JsonArr where
  | nil : JsonArr
  | cons : Json → JsonArr → JsonArr

inductive JsonObj where
  | nil : JsonObj
  | cons : String → Json → JsonObj → JsonObj

end

/-- Build a `JsonObj` from an ordered entry list. -/
def JsonObj.ofList : List (String × Json) → JsonObj
  | [] => .nil
  | (k, v) :: rest => .cons k v (JsonObj.ofList rest)

/-- The ordered entry list of a `JsonObj`. -/
def JsonObj.toList : JsonObj → List (String × Json)
  | .nil => []
  | .cons k v rest => (k, v) :: JsonObj.toList rest

/-- Build a `JsonArr` from a list of values. -/
def JsonArr.ofList : List Json → JsonArr
  | [] => .nil
  | v :: rest => .cons v (JsonArr.ofList rest)

/-- Lexicographic comparison of code-point lists. -/
def charListLt : List Char → List Char → Bool
  | _, [] => false
  | [], _ :: _ => true
  | a :: as, b :: bs =>
      if a.toNat < b.toNat then true
      else if b.toNat < a.toNat then false
      else charListLt as bs

/-- Python's string order: lexicographic comparison by code points. -/
def strLt (a b : String) : Bool := charListLt a.data b.data

/-- Insert an entry into a key-sorted object, keeping it stable: the new
entry goes after every entry with a strictly smaller key and before the
rest, exactly where Python's stable `sorted` would put it. -/
def JsonObj.insertSorted (k : String) (v : Json) : JsonObj → JsonObj
  | .nil => .cons k v .nil
  | .cons k' v' rest =>
      if strLt k' k then .cons k' v' (JsonObj.insertSorted k v rest)
      else .cons k v (.cons k' v' rest)

mutual

/-- Recursively sort every object's entries by key (`sort_keys=True`
applies at every nesting level). -/
def Json.canon : Json → Json
  | .null => .null
  | .bool b => .bool b
  | .num n => .num n
  | .str s => .str s
  | .arr items => .arr (JsonArr.canon items)
  | .obj fields => .obj (JsonObj.canon fields)

def JsonArr.canon : JsonArr → JsonArr
  | .nil => .nil
  | .cons v rest => .cons (Json.canon v) (JsonArr.canon rest)

def JsonObj.canon : JsonObj → JsonObj
  | .nil => .nil
  | .cons k v rest => JsonObj.insertSorted k (Json.canon v) (JsonObj.canon rest)

end

/-- JSON string escaping as done by `json.dumps` with `ensure_ascii=False`:
quote and backslash are escaped, control characters use the two-character
escapes or `\u00xx`, everything else (including non-ASCII) is kept as is. -/
def escapeChar (c : Char) : List Char :=
  if c = Char.ofNat 34 then [Char.ofNat 92, Char.ofNat 34]
  else if c = Char.ofNat 92 then [Char.ofNat 92, Char.ofNat 92]
  else if c = Char.ofNat 10 then [Char.ofNat 92, Char.ofNat 110]
  else if c = Char.ofNat 9 then [Char.ofNat 92, Char.ofNat 116]
  else if c = Char.ofNat 13 then [Char.ofNat 92, Char.ofNat 114]
  else if c = Char.ofNat 8 then [Char.ofNat 92, Char.ofNat 98]
  else if c = Char.ofNat 12 then [Char.ofNat 92, Char.ofNat 102]
  else if c.toNat < 32 then
    [Char.ofNat 92, Char.ofNat 117, Char.ofNat 48, Char.ofNat 48,
     hexChar (c.toNat / 16), hexChar (c.toNat % 16)]
  else [c]

/-- A JSON string literal: quotes around the escaped characters. -/
def quoteChars (s : String) : List Char :=
  Char.ofNat 34 :: s.toList.flatMap escapeChar ++ [Char.ofNat 34]

/-- Decimal rendering of an integer, as Python prints `int`. -/
def intChars (n : Int) : List Char := (toString n).toList

mutual

/-- Render an already-canonicalized value the way `json.dumps` does with
`separators=(',', ':')`: no whitespace, keys already in sorted order. -/
def Json.dumpChars : Json → List Char
  | .null => String.toList "null"
  | .bool b => if b then String.toList "true" else String.toList "false"
  | .num n => intChars n
  | .str s => quoteChars s
  | .arr items => Char.ofNat 91 :: JsonArr.dumpChars items ++ [Char.ofNat 93]
  | .obj fields => Char.ofNat 123 :: JsonObj.dumpChars fields ++ [Char.ofNat 125]

def JsonArr.dumpChars : JsonArr → List Char
  | .nil => []
  | .cons v .nil => Json.dumpChars v
  | .cons v (.cons w rest) =>
      Json.dumpChars v ++ Char.ofNat 44 :: JsonArr.dumpChars (.cons w rest)

def JsonObj.dumpChars : JsonObj → List Char
  | .nil => []
  | .cons k v .nil => quoteChars k ++ Char.ofNat 58 :: Json.dumpChars v
  | .cons k v (.cons k' v' rest) =>
      quoteChars k ++ Char.ofNat 58 :: Json.dumpChars v ++
        Char.ofNat 44 :: JsonObj.dumpChars (.cons k' v' rest)

end

/-- The canonical serialization of `hash_dict`:
`json.dumps(data, sort_keys=True, separators=(',', ':'), ensure_ascii=False)`. -/
def canonicalDumps (fields : JsonObj) : String :=
  String.mk (Json.dumpChars (Json.canon (.obj fields)))

/-! ### HashService (src/backend/app/services/hasher.py) -/

/-- HashService.hash_string: SHA3-256 of the UTF-8 encoding, lowercase hex. -/
def hash_string (data : String) : String :=
  hexDigest (sha3_256_bytes (utf8Encode data))

/-- HashService.hash_bytes: SHA3-256 of raw bytes, lowercase hex. -/
def hash_bytes (data : List Nat) : String :=
  hexDigest (sha3_256_bytes data)

/-- HashService.hash_dict: hash of the canonical JSON serialization. -/
def hash_dict (data : JsonObj) : String :=
  hash_string (canonicalDumps data)

/-- The result dictionary of HashService.compute_audit_hash. -/
structure AuditHashes where
  input_hash : String
  output_hash : String
  context_hash : String
  full_hash : String
deriving DecidableEq

/-- HashService.compute_audit_hash (services/hasher.py lines 43-69). -/
def compute_audit_hash (input_data output_data : String)
    (context metadata : JsonObj) : AuditHashes :=
  let input_hash := hash_string input_data
  let output_hash := hash_string output_data
  let context_hash := hash_dict context
  let full_hash := hash_dict (JsonObj.ofList
    [("input_hash", .str input_hash),
     ("output_hash", .str output_hash),
     ("context_hash", .str context_hash),
     ("metadata", .obj metadata)])
  { input_hash, output_hash, context_hash, full_hash }

/-- HashService.verify_audit_hash: recompute and compare the full hash
(`hmac.compare_digest` is equality on the two hex strings). -/
def verify_audit_hash (input_data output_data : String)
    (context metadata : JsonObj) (expected_full_hash : String) : Bool :=
  (compute_audit_hash input_data output_data context metadata).full_hash
    == expected_full_hash

/-- HashService.merkle_hash: hash of the concatenation of the two child
hex digests. -/
def merkle_hash (left right : String) : String :=
  hash_string (left ++ right)

/-- HashService.create_tombstone_hash (services/hasher.py lines 88-103). -/
def create_tombstone_hash (original_hash deletion_timestamp deleted_by reason : String) : String :=
  hash_dict (JsonObj.ofList
    [("original_hash", .str original_hash),
     ("deletion_timestamp", .str deletion_timestamp),
     ("deleted_by", .str deleted_by),
     ("reason", .str reason),
     ("type", .str "TOMBSTONE")])

/-! ### Merkle engine (src/backend/app/services/blockchain_service.py)

`build_merkle_tree` materializes the tree level by level: leaves are the
input hashes in order; each level pairs adjacent nodes `(i, i+1)` and an
odd tail is paired with itself (lines 63-143).  A level is represented by
its ordered list of node hashes; `nextLevel` is one pass of the
`while len(current_level) > 1` loop body.

`generate_merkle_proof` (lines 300-349) walks from a leaf to the root.
At each level the stored sibling is the node sharing `parent_hash` whose
`node_hash` differs; the walk per level is captured by `proofStepAt`,
indexing the node by position: the pair partner is at `i+1`/`i-1`, it
counts as a sibling only when its hash differs (the query filters
`node_hash != current.node_hash`), and when no sibling is found the step
carries the node's own hash with `position = "left"` (the source's
`"right" if sibling and sibling.position > current.position else "left"`
with `sibling = None`). -/

/-- One bottom-up pass of the tree builder: pair `(i, i+1)`, odd tail
self-paired (lines 93-98: `right = current_level[i+1] if i+1 < len else left`). -/
def nextLevel : List String → List String
  | [] => []
  | [x] => [merkle_hash x x]
  | x :: y :: rest => merkle_hash x y :: nextLevel rest

/-- The root hash of a tree built over `hs`, by iterating `nextLevel`
until one node remains (fuel-based; `hs.length` passes always suffice). -/
def rootOfF : Nat → List String → String
  | 0, hs => hs.headD ""
  | fuel + 1, hs => if hs.length ≤ 1 then hs.headD "" else rootOfF fuel (nextLevel hs)

def rootOf (hs : List String) : String := rootOfF hs.length hs

/-- The final value of the `level` counter in `build_merkle_tree`:
the number of levels built above the leaves. -/
def treeDepthF : Nat → List String → Nat
  | 0, _ => 0
  | fuel + 1, hs => if hs.length ≤ 1 then 0 else treeDepthF fuel (nextLevel hs) + 1

def treeDepth (hs : List String) : Nat := treeDepthF hs.length hs

/-- The MerkleRoot row created by `build_merkle_tree` (lines 126-134). -/
structure MerkleRootRec where
  root_hash : String
  tree_depth : Nat
  leaf_count : Nat
  start_sequence : Nat
  end_sequence : Nat
  is_anchored : Bool
deriving DecidableEq

/-- BlockchainService.build_merkle_tree: `none` models the
`ValueError("No hashes provided for Merkle tree")` on an empty input;
otherwise the created MerkleRoot row, with `start_sequence = 0` and
`end_sequence = len(audit_log_hashes) - 1` exactly as in lines 131-132. -/
def build_merkle_tree (audit_log_hashes : List String) : Option MerkleRootRec :=
  if audit_log_hashes = [] then none
  else some
    { root_hash := rootOf audit_log_hashes
      tree_depth := treeDepth audit_log_hashes
      leaf_count := audit_log_hashes.length
      start_sequence := 0
      end_sequence := audit_log_hashes.length - 1
      is_anchored := false }

/-- One step of a Merkle proof path, as the dict
`{"hash": ..., "position": "left" | "right"}` of line 332. -/
structure ProofStep where
  hash : String
  position : String
deriving DecidableEq

/-- The proof step emitted for the node at index `i` of a level `hs`
(lines 322-335): the pair partner is a sibling only if its hash differs;
`position = "right"` iff the sibling sits at the larger position;
with no sibling the node's own hash is emitted with `position = "left"`. -/
def proofStepAt (hs : List String) (i : Nat) : ProofStep :=
  let own := hs.getD i ""
  let j := if i % 2 = 0 then i + 1 else i - 1
  if j < hs.length then
    let sib := hs.getD j ""
    if sib ≠ own then { hash := sib, position := if i < j then "right" else "left" }
    else { hash := own, position := "left" }
  else { hash := own, position := "left" }

/-- The proof path from index `i` of the leaf level up to the root
(fuel-based mirror of the `while not current.is_root` walk). -/
def proofPathF : Nat → List String → Nat → List ProofStep
  | 0, _, _ => []
  | fuel + 1, hs, i =>
      if hs.length ≤ 1 then []
      else proofStepAt hs i :: proofPathF fuel (nextLevel hs) (i / 2)

/-- The dict returned by `generate_merkle_proof` (lines 345-349). -/
structure MerkleProofRec where
  leaf_hash : String
  root_hash : String
  proof_path : List ProofStep
deriving DecidableEq

/-- BlockchainService.generate_merkle_proof for the leaf at index `i`
of the tree built over `hs`: the walk ends at the root node, whose hash
is the built root. -/
def generate_merkle_proof (hs : List String) (i : Nat) : MerkleProofRec :=
  { leaf_hash := hs.getD i ""
    root_hash := rootOf hs
    proof_path := proofPathF hs.length hs i }

/-- One iteration of the `for step in proof_path` loop of
`verify_merkle_proof` (lines 360-367). -/
def applyStep (cur : String) (s : ProofStep) : String :=
  if s.position = "left" then merkle_hash s.hash cur else merkle_hash cur s.hash

/-- BlockchainService.verify_merkle_proof (lines 351-369). -/
def verify_merkle_proof (leaf_hash root_hash : String) (proof_path : List ProofStep) : Bool :=
  proof_path.foldl applyStep leaf_hash == root_hash

/-! ### Anchor state machine (src/backend/app/services/blockchain_service.py)

`anchor_to_blockchain` (lines 145-217), `_wait_for_confirmation`
(lines 249-270) and `verify_anchor` (lines 272-298) interact with the
ledger through a narrow submit/poll interface, modelled by `LedgerEnv`.
Wall-clock time is abstracted: the bounded confirmation wait polls once
per `poll_interval` seconds until `max_wait` seconds have elapsed, so it
performs `max_wait / poll_interval` polls, indexed by attempt number. -/

inductive AnchorStatus where
  | PENDING | SUBMITTED | CONFIRMED | FAILED | FINALIZED
deriving DecidableEq

/-- A transaction receipt as consumed by the service: `blockNumber` may
be absent (the code checks `receipt.get("blockNumber")`). -/
structure ReceiptRec where
  blockNumber : Option Nat
  gasUsed : Option Nat
deriving DecidableEq

/-- The ledger/configuration environment of one run: the submit outcome,
the receipt observed at each poll attempt during the bounded wait, the
receipt lookup by transaction hash, and the current block height. -/
structure LedgerEnv where
  blockchain_enabled : Bool
  submitResult : Except String String
  receiptAt : Nat → Option ReceiptRec
  receiptOf : String → Option ReceiptRec
  current_block : Nat

/-- Errors surfaced by the anchor worker: `timeout` is the
`TimeoutError(f"Transaction {tx_hash} not confirmed within {max_wait}s")`
of line 270, `submitFailed` any exception out of the submit path. -/
inductive AnchorErr where
  | timeout (tx_hash : String)
  | submitFailed (msg : String)
deriving DecidableEq

/-- The rendered message of an anchor error (`str(e)` in line 214). -/
def AnchorErr.message : AnchorErr → String
  | .timeout tx => "Transaction " ++ tx ++ " not confirmed within 300s"
  | .submitFailed m => m

/-- The BlockchainAnchor row fields the state machine touches. -/
structure AnchorRec where
  root_hash : String
  network_name : String
  status : AnchorStatus
  tx_hash : Option String
  block_number : Option Nat
  retry_count : Nat
  last_error : Option String
deriving DecidableEq

/-- Default wait bound of `_wait_for_confirmation` (line 252). -/
def max_wait : Nat := 300

/-- The fixed sleep between polls (line 268). -/
def poll_interval : Nat := 5

/-- The polling loop of `_wait_for_confirmation`: attempt `k` observes
`env.receiptAt k`; a receipt counts only when it carries a block number
(line 263); when the fuel (the bounded wait) is exhausted a timeout is
raised. -/
def waitForConfirmationF (env : LedgerEnv) (tx : String) : Nat → Nat → Except AnchorErr ReceiptRec
  | _, 0 => .error (.timeout tx)
  | k, fuel + 1 =>
      match env.receiptAt k with
      | some r => if r.blockNumber.isSome then .ok r else waitForConfirmationF env tx (k + 1) fuel
      | none => waitForConfirmationF env tx (k + 1) fuel

/-- BlockchainService._wait_for_confirmation with the default bound:
`max_wait / poll_interval` poll attempts. -/
def wait_for_confirmation (env : LedgerEnv) (tx : String) : Except AnchorErr ReceiptRec :=
  waitForConfirmationF env tx 0 (max_wait / poll_interval)

/-- The result of one `anchor_to_blockchain` call: the final anchor row,
the sequence of states the row went through (in flush order), and the
outcome the caller sees (`.error` models the re-raised exception). -/
structure AnchorRunRec where
  anchor : AnchorRec
  trace : List AnchorStatus
  outcome : Except AnchorErr Unit

/-- BlockchainService.anchor_to_blockchain (lines 145-217).  With the
ledger disabled a simulated anchor is created directly in CONFIRMED
state (lines 150-173).  Otherwise the anchor starts PENDING, moves to
SUBMITTED once the transaction hash is returned, then to CONFIRMED on a
receipt; any exception (submission failure or confirmation timeout)
moves it to FAILED, records `last_error` and increments `retry_count`,
and is re-raised (lines 212-217). -/
def anchor_to_blockchain (env : LedgerEnv) (root_hash : String) (sim_tx : String) : AnchorRunRec :=
  if !env.blockchain_enabled then
    { anchor :=
        { root_hash := root_hash, network_name := "simulated",
          status := .CONFIRMED, tx_hash := some sim_tx,
          block_number := some 1, retry_count := 0, last_error := none },
      trace := [.CONFIRMED],
      outcome := .ok () }
  else
    let pending : AnchorRec :=
      { root_hash := root_hash, network_name := "ethereum",
        status := .PENDING, tx_hash := none,
        block_number := none, retry_count := 0, last_error := none }
    match env.submitResult with
    | .error e =>
        { anchor := { pending with
                      status := .FAILED
                      last_error := some e
                      retry_count := pending.retry_count + 1 }
          trace := [.PENDING, .FAILED]
          outcome := .error (.submitFailed e) }
    | .ok tx =>
        let submitted := { pending with status := .SUBMITTED, tx_hash := some tx }
        match wait_for_confirmation env tx with
        | .error err =>
            { anchor := { submitted with
                          status := .FAILED
                          last_error := some err.message
                          retry_count := submitted.retry_count + 1 }
              trace := [.PENDING, .SUBMITTED, .FAILED]
              outcome := .error err }
        | .ok receipt =>
            { anchor := { submitted with
                          status := .CONFIRMED
                          block_number := receipt.blockNumber }
              trace := [.PENDING, .SUBMITTED, .CONFIRMED]
              outcome := .ok () }

/-- BlockchainService.verify_anchor (lines 272-298).  Simulated anchors
are always valid and never transition.  Otherwise the receipt is looked
up by the stored transaction hash (an absent hash or receipt yields
`False` through the `except` clause); with a receipt, the anchor is
moved to FINALIZED when `current_block - block_number >= 12` and it is
not already FINALIZED — the branch checks no other precondition on the
current status. -/
def verify_anchor (env : LedgerEnv) (a : AnchorRec) : AnchorRec × Bool :=
  if a.network_name = "simulated" then (a, true)
  else
    match a.tx_hash with
    | none => (a, false)
    | some tx =>
        match env.receiptOf tx with
        | none => (a, false)
        | some r =>
            match r.blockNumber with
            | none => (a, false)
            | some bn =>
                if env.current_block - bn ≥ 12 ∧ a.status ≠ .FINALIZED then
                  ({ a with status := .FINALIZED }, true)
                else (a, true)

/-- The reachable (anchor row, state history) pairs: a row is created by
one `anchor_to_blockchain` run and then repeatedly passed to
`verify_anchor` (the periodic verifier), each call appending the row's
state after it to the history. -/
inductive AnchorReachable : AnchorRec → List AnchorStatus → Prop where
  | created (env : LedgerEnv) (root_hash sim_tx : String) :
      AnchorReachable (anchor_to_blockchain env root_hash sim_tx).anchor
        (anchor_to_blockchain env root_hash sim_tx).trace
  | verified (env : LedgerEnv) (a : AnchorRec) (tr : List AnchorStatus) :
      AnchorReachable a tr →
      AnchorReachable (verify_anchor env a).1 (tr ++ [(verify_anchor env a).1.status])

/-- Rank of a status along the documented progression
PENDING → SUBMITTED → CONFIRMED → FINALIZED; FAILED sits outside it. -/
def chainRank : AnchorStatus → Option Nat
  | .PENDING => some 0
  | .SUBMITTED => some 1
  | .CONFIRMED => some 2
  | .FINALIZED => some 3
  | .FAILED => none

/-- `chainLt a b`: `a` is strictly earlier than `b` along the progression. -/
def chainLt (a b : AnchorStatus) : Bool :=
  match chainRank a, chainRank b with
  | some x, some y => x < y
  | _, _ => false

/-- Poll attempt `k` fails to observe a usable receipt: either nothing is
returned (`TransactionNotFound`) or the receipt has no block number yet. -/
def pollMiss (env : LedgerEnv) (k : Nat) : Bool :=
  match env.receiptAt k with
  | some r => r.blockNumber.isNone
  | none => true

/-! ### Audit log records and the integrity verifier (routers/verify.py)

An `AuditLogRec` carries the AuditLog columns the verifier and the GDPR
service read (models/audit_log.py).  Wall-clock instants that are only
ordered or copied are modelled as `Nat`; instants whose ISO rendering is
hashed are carried as the rendered `String`. -/

structure InteractionRec where
  prompt : String
  response : String

structure AuditLogRec where
  decision_id : String
  organization_id : String
  user_id : Option String
  model_name : String
  decision_type : String
  input_hash : String
  output_hash : String
  context_hash : String
  full_hash : String
  merkle_root : Option String
  blockchain_tx_hash : Option String
  is_gdpr_deleted : Bool
  gdpr_deleted_at : Option Nat
  created_at : Nat
  sequence_number : Nat
  interaction : Option InteractionRec
  context : Option JsonObj

/-- The fixed metadata projection handed to the hasher on capture and on
verification (log_capture.py lines 37-42, verify.py lines 251-256):
`{organization_id, user_id, model_name, decision_type.value}`; an absent
`user_id` serializes as `null`. -/
def metadataOf (log : AuditLogRec) : JsonObj :=
  JsonObj.ofList
    [("organization_id", .str log.organization_id),
     ("user_id", match log.user_id with | some u => .str u | none => .null),
     ("model_name", .str log.model_name),
     ("decision_type", .str log.decision_type)]

/-- The context dictionary handed to the hasher:
`log.context.model_dump() if log.context else {}` (verify.py line 250). -/
def contextOf (log : AuditLogRec) : JsonObj :=
  log.context.getD .nil

/-- The hash check run per record by the integrity report (verify.py
lines 246-258): recompute the full hash from the stored plaintext and
compare with the stored `full_hash`. -/
def recomputeValid (log : AuditLogRec) (it : InteractionRec) : Bool :=
  verify_audit_hash it.prompt it.response (contextOf log) (metadataOf log) log.full_hash

/-- One entry of the report's `failed_verifications` list
(verify.py lines 264-268). -/
structure FailedVerification where
  decision_id : String
  expected_hash : String
  timestamp : Nat
deriving DecidableEq

def failedEntryOf (log : AuditLogRec) : FailedVerification :=
  { decision_id := log.decision_id
    expected_hash := log.full_hash
    timestamp := log.created_at }

/-- The `for log in logs` loop of `get_integrity_report` (verify.py
lines 242-268): GDPR-deleted records are skipped, records without an
attached interaction are neither verified nor tampered, and a failed
hash check appends a `failed_verifications` entry in loop order.
Returns `(verified, tampered, failed)`. -/
def reportScan : List AuditLogRec → Nat × Nat × List FailedVerification
  | [] => (0, 0, [])
  | log :: rest =>
      let acc := reportScan rest
      if log.is_gdpr_deleted then acc
      else
        match log.interaction with
        | none => acc
        | some it =>
            if recomputeValid log it then (acc.1 + 1, acc.2.1, acc.2.2)
            else (acc.1, acc.2.1 + 1, failedEntryOf log :: acc.2.2)

/-- The IntegrityReport fields produced from the scan
(verify.py lines 273-295). -/
structure IntegrityReportRec where
  overall_integrity : Bool
  total_logs : Nat
  verified_logs : Nat
  tampered_logs : Nat
  gdpr_deleted_logs : Nat
  failed_verifications : List FailedVerification
deriving DecidableEq

/-- `get_integrity_report` over the records loaded for the organization
and date window (the store query is the collaborator; its result list is
the argument). -/
def get_integrity_report (logs : List AuditLogRec) : IntegrityReportRec :=
  let scan := reportScan logs
  { overall_integrity := scan.2.1 == 0
    total_logs := logs.length
    verified_logs := scan.1
    tampered_logs := scan.2.1
    gdpr_deleted_logs := (logs.filter (·.is_gdpr_deleted)).length
    failed_verifications := scan.2.2 }

/-! ### GDPR service (src/backend/app/services/gdpr_service.py) -/

/-- The TombstoneRecord row (models/blockchain_anchor.py lines 99-151).
`created_at` is assigned by the store (`server_default=func.now()`); the
row has no column for the `deletion_timestamp` captured and hashed in
`_create_tombstone`. -/
structure TombstoneRec where
  id : String
  original_decision_id : String
  deleted_by : String
  deletion_reason : String
  legal_basis : String
  original_hash : String
  deletion_hash : String
  deletion_anchor_tx_hash : Option String
  deletion_verified : Bool
  created_at : String
  permanent_retention_until : Nat

/-- GDPRService._create_tombstone (gdpr_service.py lines 110-145):
`deletion_timestamp = datetime.utcnow().isoformat()` is captured (line
120), hashed into `deletion_hash` (lines 123-128), and then discarded —
the created row stores only `created_at`, which the store fills with its
own clock at insert (`row_created_at` here). -/
def create_tombstone (log : AuditLogRec) (requested_by reason legal_basis : String)
    (retention_until : Nat) (deletion_timestamp row_created_at tombstone_id : String) :
    TombstoneRec :=
  { id := tombstone_id
    original_decision_id := log.decision_id
    deleted_by := requested_by
    deletion_reason := reason
    legal_basis := legal_basis
    original_hash := log.full_hash
    deletion_hash := create_tombstone_hash log.full_hash deletion_timestamp requested_by reason
    deletion_anchor_tx_hash := none
    deletion_verified := false
    created_at := row_created_at
    permanent_retention_until := retention_until }

/-- The dict returned by GDPRService.verify_tombstone (lines 206-213)
for an existing tombstone. -/
structure TombstoneVerification where
  tombstone_id : String
  original_decision_id : String
  deletion_verified : Bool
  blockchain_anchored : Bool
deriving DecidableEq

/-- GDPRService.verify_tombstone (lines 181-213): the deletion hash is
recomputed from the stored fields with `tombstone.created_at.isoformat()`
as the timestamp (line 199) and compared with the stored value. -/
def verify_tombstone (t : TombstoneRec) : TombstoneVerification :=
  let computed := create_tombstone_hash t.original_hash t.created_at t.deleted_by t.deletion_reason
  { tombstone_id := t.id
    original_decision_id := t.original_decision_id
    deletion_verified := computed == t.deletion_hash
    blockchain_anchored := t.deletion_anchor_tx_hash.isSome }

/-- GDPRDeletionRequest (schemas/compliance.py lines 96-110). -/
structure DeletionRequest where
  user_id : String
  organization_id : String
  reason : String
  legal_basis : String
  requested_by : String
  request_date : Nat
  retention_override_days : Option Nat
  specific_decision_ids : Option (List String)
  date_range_start : Option Nat
  date_range_end : Option Nat

/-- The record-selection query of `request_deletion` (gdpr_service.py
lines 34-49): non-deleted records of the user and organization,
optionally narrowed to specific decision ids and a date range. -/
def matchesDeletion (req : DeletionRequest) (log : AuditLogRec) : Bool :=
  log.user_id == some req.user_id &&
  log.organization_id == req.organization_id &&
  !log.is_gdpr_deleted &&
  (match req.specific_decision_ids with
   | none => true
   | some ids => ids.contains log.decision_id) &&
  (match req.date_range_start with
   | none => true
   | some d => decide (d ≤ log.created_at)) &&
  (match req.date_range_end with
   | none => true
   | some d => decide (log.created_at ≤ d))

/-- GDPRDeletionResponse (schemas/compliance.py lines 113-126); optional
fields the service never passes are `none`. -/
structure GDPRDeletionResponseRec where
  deletion_id : String
  status : String
  requested_at : Nat
  completed_at : Option Nat
  affected_decisions : Nat
  tombstone_ids : List String
  deletion_proof_hash : Option String
  retention_until : Nat

/-- The store state a deletion run reads and writes: the audit log rows,
the materialized Merkle trees (each kept as its ordered leaf list, which
determines all its nodes and its root), and the tombstone rows. -/
structure GdprState where
  logs : List AuditLogRec
  trees : List (List String)
  tombstones : List TombstoneRec

/-- GDPRService._create_deletion_proof (lines 165-179). -/
def create_deletion_proof (deletion_id : String) (tombstone_ids : List String)
    (requested_by timestamp : String) : String :=
  hash_dict (JsonObj.ofList
    [("deletion_id", .str deletion_id),
     ("tombstone_ids", .arr (JsonArr.ofList (tombstone_ids.map Json.str))),
     ("requested_by", .str requested_by),
     ("timestamp", .str timestamp),
     ("type", .str "GDPR_DELETION")])

/-- GDPRService._anchor_tombstone (lines 147-163): build a single-leaf
Merkle tree over the deletion hash (its rows are flushed and survive even
if the subsequent anchoring raises), anchor it, and on success record the
anchor transaction hash and set `deletion_verified`; exceptions are
swallowed. -/
def anchor_tombstone (ledger : LedgerEnv) (sim_tx : String) (t : TombstoneRec) :
    TombstoneRec × List String :=
  let run := anchor_to_blockchain ledger t.deletion_hash sim_tx
  match run.outcome with
  | .ok _ =>
      ({ t with deletion_anchor_tx_hash := run.anchor.tx_hash, deletion_verified := true },
       [t.deletion_hash])
  | .error _ => (t, [t.deletion_hash])

/-- The ingredients of one `request_deletion` run that the reference
implementation draws from ambient sources: clocks and generated ids. -/
structure DeletionRunEnv where
  now : Nat
  deletion_timestamp : String
  row_created_at : String
  proof_timestamp : String
  deletion_id : String
  tombstone_id_at : Nat → String
  sim_tx : String

/-- GDPRService.request_deletion (gdpr_service.py lines 26-108).  With no
matching record it returns immediately: status `"completed"`, zero
affected decisions, no tombstones, no deletion proof, and
`retention_until = datetime.utcnow()` (line 61) — not now plus the
retention period — and the store is untouched.  Otherwise each selected
record gets a tombstone, has only its `is_gdpr_deleted` and
`gdpr_deleted_at` fields updated (lines 83-84), and, when the ledger is
enabled, a single-leaf tree per tombstone is built and anchored. -/
def request_deletion (blockchain_enabled : Bool) (retention_days : Nat)
    (ledger : LedgerEnv) (env : DeletionRunEnv) (s : GdprState) (req : DeletionRequest) :
    GdprState × GDPRDeletionResponseRec :=
  let logs_to_delete := s.logs.filter (matchesDeletion req)
  if logs_to_delete.isEmpty then
    (s,
     { deletion_id := env.deletion_id
       status := "completed"
       requested_at := req.request_date
       completed_at := none
       affected_decisions := 0
       tombstone_ids := []
       deletion_proof_hash := none
       retention_until := env.now })
  else
    let rdays :=
      match req.retention_override_days with
      | some d => if d = 0 then retention_days else d
      | none => retention_days
    let retention_until := env.now + rdays
    let fresh := (logs_to_delete.enum).map (fun p =>
      create_tombstone p.2 req.requested_by req.reason req.legal_basis retention_until
        env.deletion_timestamp env.row_created_at (env.tombstone_id_at p.1))
    let anchored := if blockchain_enabled
      then fresh.map (fun t => anchor_tombstone ledger env.sim_tx t)
      else fresh.map (fun t => (t, []))
    let new_tombstones := anchored.map (·.1)
    let tombstone_ids := new_tombstones.map (·.id)
    let logs2 := s.logs.map (fun log =>
      if matchesDeletion req log then
        { log with is_gdpr_deleted := true, gdpr_deleted_at := some env.now }
      else log)
    let trees2 := s.trees ++ (anchored.map (·.2)).filter (· ≠ [])
    let proof := create_deletion_proof env.deletion_id tombstone_ids
      req.requested_by env.proof_timestamp
    ({ logs := logs2, trees := trees2, tombstones := s.tombstones ++ new_tombstones },
     { deletion_id := env.deletion_id
       status := "completed"
       requested_at := req.request_date
       completed_at := some env.now
       affected_decisions := logs_to_delete.length
       tombstone_ids := tombstone_ids
       deletion_proof_hash := some proof
       retention_until := retention_until })

/-- A record counts as tampered in the integrity report: not deleted,
payload attached, and the recomputed full hash differs from the stored one. -/
def logTampered (log : AuditLogRec) : Bool :=
  !log.is_gdpr_deleted &&
    (match log.interaction with
     | some it => !(recomputeValid log it)
     | none => false)

/-- A record counts as verified in the integrity report. -/
def logVerified (log : AuditLogRec) : Bool :=
  !log.is_gdpr_deleted &&
    (match log.interaction with
     | some it => recomputeValid log it
     | none => false)

/-! ### Concrete fixtures used by witnesses -/

def sampleEnv : DeletionRunEnv :=
  { now := 1000
    deletion_timestamp := "2024-01-01T00:00:00"
    row_created_at := "2024-01-01T00:00:01"
    proof_timestamp := "2024-01-01T00:00:02"
    deletion_id := "gdpr_del_0001"
    tombstone_id_at := fun k => "ts" ++ toString k
    sim_tx := "0xsim" }

def sampleLedgerOff : LedgerEnv :=
  { blockchain_enabled := false
    submitResult := .error "disabled"
    receiptAt := fun _ => none
    receiptOf := fun _ => none
    current_block := 0 }

def sampleMetadata : JsonObj :=
  JsonObj.ofList
    [("organization_id", .str "org1"), ("user_id", .str "u1"),
     ("model_name", .str "m"), ("decision_type", .str "GENERATION")]

/-- An honestly captured record: its stored hashes are exactly the ones
`capture_log` computes from its plaintext. -/
def sampleLog1 : AuditLogRec :=
  { decision_id := "dec1"
    organization_id := "org1"
    user_id := some "u1"
    model_name := "m"
    decision_type := "GENERATION"
    input_hash := (compute_audit_hash "in1" "out1" .nil sampleMetadata).input_hash
    output_hash := (compute_audit_hash "in1" "out1" .nil sampleMetadata).output_hash
    context_hash := (compute_audit_hash "in1" "out1" .nil sampleMetadata).context_hash
    full_hash := (compute_audit_hash "in1" "out1" .nil sampleMetadata).full_hash
    merkle_root := some "r1"
    blockchain_tx_hash := none
    is_gdpr_deleted := false
    gdpr_deleted_at := none
    created_at := 10
    sequence_number := 5
    interaction := some { prompt := "in1", response := "out1" }
    context := some .nil }

/-- The same record with its stored `full_hash` overwritten. -/
def sampleLogTampered : AuditLogRec :=
  { sampleLog1 with
    decision_id := "dec2"
    full_hash := "0000000000000000000000000000000000000000000000000000000000000000"
    created_at := 11
    sequence_number := 6 }

/-- A record of another user (never matched by a deletion for "u1"). -/
def sampleLogOtherUser : AuditLogRec :=
  { sampleLog1 with
    decision_id := "dec3"
    user_id := some "u2"
    created_at := 12
    sequence_number := 7 }

def sampleReq : DeletionRequest :=
  { user_id := "u1"
    organization_id := "org1"
    reason := "erasure"
    legal_basis := "Article 17 - Right to erasure"
    requested_by := "alice"
    request_date := 999
    retention_override_days := none
    specific_decision_ids := none
    date_range_start := none
    date_range_end := none }

def sampleReqNoMatch : DeletionRequest :=
  { sampleReq with user_id := "u9" }

/-- A lowercase hexadecimal digit: '0'-'9' or 'a'-'f'. -/
def isLowerHexChar (c : Char) : Prop :=
  (48 ≤ c.toNat ∧ c.toNat ≤ 57) ∨ (97 ≤ c.toNat ∧ c.toNat ≤ 102)

/-- A 64-character lowercase hexadecimal string. -/
def is64LowerHex (s : String) : Prop :=
  s.length = 64 ∧ ∀ c ∈ s.data, isLowerHexChar c

/-! ## Theorems -/

/-! ### Merkle engine lemmas -/

theorem nextLevel_length (hs : List String) : (nextLevel hs).length = (hs.length + 1) / 2 := by
  induction hs using nextLevel.induct with
  | case1 => simp [nextLevel]
  | case2 x => simp [nextLevel]
  | case3 x y rest ih => simp [nextLevel, ih]; omega

theorem proofStepAt_cons_cons (x y : String) (rest : List String) (i : Nat) :
    proofStepAt (x :: y :: rest) (i + 2) = proofStepAt rest i := by
  rcases Nat.mod_two_eq_zero_or_one i with h | h
  · have h2 : (i + 2) % 2 = 0 := by omega
    by_cases hj : i + 1 < rest.length
    · simp [proofStepAt, h, h2, if_pos, hj, show i + 2 + 1 < rest.length + 2 from by omega,
        List.getD_cons_succ]
    · simp [proofStepAt, h, h2, hj, show ¬(i + 2 + 1 < rest.length + 2) from by omega,
        List.getD_cons_succ]
  · obtain ⟨k, rfl⟩ : ∃ k, i = k + 1 := ⟨i - 1, by omega⟩
    have h2 : (k + 1 + 2) % 2 = 1 := by omega
    have e2 : k + 1 + 2 - 1 = k + 2 := by omega
    by_cases hj : k < rest.length
    · simp [proofStepAt, h, h2, e2, hj, show k + 2 < rest.length + 2 from by omega,
        List.getD_cons_succ, show ¬ (k + 1 + 2 < k + 2) from by omega,
        show ¬ (k + 1 < k) from by omega]
    · simp [proofStepAt, h, h2, e2, hj, show ¬ (k + 2 < rest.length + 2) from by omega,
        List.getD_cons_succ]

theorem applyStep_proofStepAt (hs : List String) (i : Nat) (hi : i < hs.length) :
    applyStep (hs.getD i "") (proofStepAt hs i) = (nextLevel hs).getD (i / 2) "" := by
  induction hs using nextLevel.induct generalizing i with
  | case1 => simp at hi
  | case2 x =>
      obtain rfl : i = 0 := by simpa using hi
      simp [proofStepAt, applyStep, nextLevel]
  | case3 x y rest ih =>
      match i with
      | 0 =>
          by_cases hxy : y = x
          · simp [proofStepAt, applyStep, nextLevel, hxy]
          · simp [proofStepAt, applyStep, nextLevel, hxy]
      | 1 =>
          by_cases hxy : x = y
          · simp [proofStepAt, applyStep, nextLevel, hxy]
          · simp [proofStepAt, applyStep, nextLevel, hxy]
      | (k + 2) =>
          have hk : k < rest.length := by simpa using hi
          have e : (k + 2) / 2 = k / 2 + 1 := by omega
          rw [proofStepAt_cons_cons, e]
          simpa [nextLevel, List.getD_cons_succ] using ih k hk

theorem foldl_proofPathF (fuel : Nat) :
    ∀ (hs : List String) (i : Nat), hs.length ≤ fuel + 1 → i < hs.length →
      (proofPathF fuel hs i).foldl applyStep (hs.getD i "") = rootOfF fuel hs := by
  induction fuel with
  | zero =>
      intro hs i hlen hi
      match hs with
      | [x] => obtain rfl : i = 0 := by simpa using hi
               simp [proofPathF, rootOfF]
      | [] => simp at hi
  | succ fuel ih =>
      intro hs i hlen hi
      by_cases h1 : hs.length ≤ 1
      · obtain rfl : i = 0 := by omega
        match hs with
        | [x] => simp [proofPathF, rootOfF]
        | [] => simp at hi
      · rw [proofPathF, rootOfF, if_neg h1, if_neg h1, List.foldl_cons,
          applyStep_proofStepAt hs i hi]
        apply ih
        · rw [nextLevel_length]; omega
        · rw [nextLevel_length]; omega

/-- Round trip at the level of the generated proof record: shared by the
claims about proof generation and about deletion preserving proofs. -/
theorem merkle_roundtrip_aux (hs : List String) (i : Nat) (hi : i < hs.length) :
    verify_merkle_proof (generate_merkle_proof hs i).leaf_hash
      (generate_merkle_proof hs i).root_hash (generate_merkle_proof hs i).proof_path = true := by
  have h := foldl_proofPathF hs.length hs i (by omega) hi
  rw [List.getD_eq_getElem?_getD] at h
  simp [verify_merkle_proof, generate_merkle_proof, rootOf, h]

/-- The root hash recorded by `build_merkle_tree` is `rootOf`. -/
theorem build_merkle_tree_root (hs : List String) (r : MerkleRootRec)
    (h : build_merkle_tree hs = some r) : r.root_hash = rootOf hs := by
  unfold build_merkle_tree at h
  by_cases hne : hs = []
  · simp [hne] at h
  · rw [if_neg hne] at h
    cases h
    rfl

/-- C2: for every Merkle tree built by the engine from a non-empty ordered
list of leaf hashes and for every leaf of that tree, the proof produced by
`generate_merkle_proof` verifies against the tree's root hash under
`verify_merkle_proof`. -/
theorem merkle_generate_then_verify (hs : List String) (i : Nat) (r : MerkleRootRec)
    (hbuild : build_merkle_tree hs = some r) (hi : i < hs.length) :
    verify_merkle_proof (generate_merkle_proof hs i).leaf_hash
      r.root_hash (generate_merkle_proof hs i).proof_path = true := by
  rw [build_merkle_tree_root hs r hbuild]
  exact merkle_roundtrip_aux hs i hi

/-- Witness for C2: the three-leaf tree, including the self-paired leaf. -/
theorem merkle_generate_then_verify_witness :
    build_merkle_tree ["a", "b", "c"] = some
      { root_hash := rootOf ["a", "b", "c"]
        tree_depth := treeDepth ["a", "b", "c"]
        leaf_count := 3
        start_sequence := 0
        end_sequence := 2
        is_anchored := false } ∧
    2 < (["a", "b", "c"] : List String).length ∧
    verify_merkle_proof (generate_merkle_proof ["a", "b", "c"] 2).leaf_hash
      (MerkleRootRec.root_hash
        { root_hash := rootOf ["a", "b", "c"]
          tree_depth := treeDepth ["a", "b", "c"]
          leaf_count := 3
          start_sequence := 0
          end_sequence := 2
          is_anchored := false })
      (generate_merkle_proof ["a", "b", "c"] 2).proof_path = true :=
  ⟨rfl, by decide,
    merkle_generate_then_verify ["a", "b", "c"] 2 _ rfl (by decide)⟩

/-- C4 counterexample: in the tree over `["a", "b", "c"]` the leaf at
index 2 is the odd-tail self-paired node; the proof step emitted for it
carries the node's own hash but `position = "left"`, not `"right"` as the
claim states. -/
theorem selfpair_step_counterexample :
    (generate_merkle_proof ["a", "b", "c"] 2).proof_path.head? =
      some { hash := "c", position := "left" } ∧
    ¬ (generate_merkle_proof ["a", "b", "c"] 2).proof_path.head? =
      some { hash := "c", position := "right" } := by
  constructor
  · rfl
  · intro h
    have h1 : (generate_merkle_proof ["a", "b", "c"] 2).proof_path.head? =
        some { hash := "c", position := "left" } := rfl
    rw [h1] at h
    simp at h

/-- C4 as amended: when proof generation reaches a node that has no
sibling (the odd-tail self-paired node, at any level of the walk), the
emitted proof step uses the node's own hash and carries
`position = "left"`. -/
theorem selfpair_step_emits_left (hs : List String) (i : Nat)
    (heven : i % 2 = 0) (hlast : i + 1 = hs.length) :
    proofStepAt hs i = { hash := hs.getD i "", position := "left" } := by
  have hj : ¬ (i + 1 < hs.length) := by omega
  simp [proofStepAt, heven, hj]

/-- Witness for the amended C4. -/
theorem selfpair_step_emits_left_witness :
    2 % 2 = 0 ∧ 2 + 1 = (["a", "b", "c"] : List String).length ∧
    proofStepAt ["a", "b", "c"] 2 =
      { hash := (["a", "b", "c"] : List String).getD 2 "", position := "left" } :=
  ⟨by decide, by decide, selfpair_step_emits_left ["a", "b", "c"] 2 (by decide) (by decide)⟩

/-- C7: `build_merkle_tree` stores `start_sequence = 0` and
`end_sequence = leaf_count - 1` for every batch, regardless of the
sequence numbers of the records the leaf hashes came from — so for any
batch whose records do not start at sequence number 0 the recorded range
is not the actual sequence range (the source comment `# Will be updated`
notwithstanding: no code updates it). -/
theorem build_merkle_tree_sequence_range (hs : List String) (r : MerkleRootRec)
    (h : build_merkle_tree hs = some r) :
    r.start_sequence = 0 ∧ r.end_sequence = hs.length - 1 := by
  unfold build_merkle_tree at h
  by_cases hne : hs = []
  · simp [hne] at h
  · rw [if_neg hne] at h
    cases h
    exact ⟨rfl, rfl⟩

/-- Witness for C7: a two-leaf batch (for records with sequence numbers
5 and 6, say) still gets `[start_sequence, end_sequence] = [0, 1]`. -/
theorem build_merkle_tree_sequence_range_witness :
    build_merkle_tree ["a", "b"] = some
      { root_hash := rootOf ["a", "b"]
        tree_depth := treeDepth ["a", "b"]
        leaf_count := 2
        start_sequence := 0
        end_sequence := 1
        is_anchored := false } ∧
    MerkleRootRec.start_sequence
      { root_hash := rootOf ["a", "b"]
        tree_depth := treeDepth ["a", "b"]
        leaf_count := 2
        start_sequence := 0
        end_sequence := 1
        is_anchored := false } = 0 ∧
    MerkleRootRec.end_sequence
      { root_hash := rootOf ["a", "b"]
        tree_depth := treeDepth ["a", "b"]
        leaf_count := 2
        start_sequence := 0
        end_sequence := 1
        is_anchored := false } = (["a", "b"] : List String).length - 1 :=
  ⟨rfl, (build_merkle_tree_sequence_range ["a", "b"] _ rfl).1,
    (build_merkle_tree_sequence_range ["a", "b"] _ rfl).2⟩

/-! ### Anchor worker lemmas -/

theorem waitForConfirmationF_timeout (env : LedgerEnv) (tx : String) :
    ∀ (fuel k : Nat), (∀ j, k ≤ j → j < k + fuel → pollMiss env j = true) →
      waitForConfirmationF env tx k fuel = .error (.timeout tx) := by
  intro fuel
  induction fuel with
  | zero => intro k _; rfl
  | succ fuel ih =>
      intro k hmiss
      have hk : pollMiss env k = true := hmiss k (le_refl k) (by omega)
      unfold waitForConfirmationF
      unfold pollMiss at hk
      cases hr : env.receiptAt k with
      | none => exact ih (k + 1) (fun j h1 h2 => hmiss j (by omega) (by omega))
      | some r =>
          rw [hr] at hk
          simp only at hk
          have h2 : r.blockNumber.isSome = false := by
            cases hb : r.blockNumber with
            | none => rfl
            | some v => rw [hb] at hk; simp at hk
          show (if r.blockNumber.isSome = true then Except.ok r
            else waitForConfirmationF env tx (k + 1) fuel) = _
          rw [h2]
          simp only [Bool.false_eq_true, if_false]
          exact ih (k + 1) (fun j h1 h2 => hmiss j (by omega) (by omega))

/-- C6 counterexample: with the ledger enabled, a submitted transaction
and no receipt ever observed, the run surfaces the Timeout error, but the
anchor does not stay SUBMITTED — it ends FAILED. -/
theorem anchor_timeout_counterexample :
    (anchor_to_blockchain
      { blockchain_enabled := true
        submitResult := .ok "0xabc"
        receiptAt := fun _ => none
        receiptOf := fun _ => none
        current_block := 0 } "root1" "sim1").anchor.status = .FAILED ∧
    ¬ (anchor_to_blockchain
      { blockchain_enabled := true
        submitResult := .ok "0xabc"
        receiptAt := fun _ => none
        receiptOf := fun _ => none
        current_block := 0 } "root1" "sim1").anchor.status = .SUBMITTED ∧
    (anchor_to_blockchain
      { blockchain_enabled := true
        submitResult := .ok "0xabc"
        receiptAt := fun _ => none
        receiptOf := fun _ => none
        current_block := 0 } "root1" "sim1").outcome = .error (.timeout "0xabc") := by
  refine ⟨rfl, ?_, rfl⟩
  intro h
  have h2 : (anchor_to_blockchain
      { blockchain_enabled := true
        submitResult := .ok "0xabc"
        receiptAt := fun _ => none
        receiptOf := fun _ => none
        current_block := 0 } "root1" "sim1").anchor.status = .FAILED := rfl
  rw [h2] at h
  exact absurd h (by decide)

/-- C6 as amended: if the bounded confirmation wait (default 300 seconds,
polling every 5 seconds) elapses without observing a usable receipt for a
submitted anchor, the Timeout error is surfaced to the caller, but the
anchor does not stay SUBMITTED: the exception handler moves it to FAILED,
records `last_error` and increments `retry_count`. -/
theorem anchor_timeout_fails (env : LedgerEnv) (root_hash sim_tx tx : String)
    (hen : env.blockchain_enabled = true)
    (hsub : env.submitResult = .ok tx)
    (hmiss : ∀ j, j < max_wait / poll_interval → pollMiss env j = true) :
    (anchor_to_blockchain env root_hash sim_tx).anchor.status = .FAILED ∧
    (anchor_to_blockchain env root_hash sim_tx).outcome = .error (.timeout tx) ∧
    (anchor_to_blockchain env root_hash sim_tx).trace =
      [.PENDING, .SUBMITTED, .FAILED] ∧
    (anchor_to_blockchain env root_hash sim_tx).anchor.last_error.isSome = true ∧
    (anchor_to_blockchain env root_hash sim_tx).anchor.retry_count = 1 := by
  have hwait : wait_for_confirmation env tx = .error (.timeout tx) :=
    waitForConfirmationF_timeout env tx (max_wait / poll_interval) 0
      (fun j _ h2 => hmiss j (by omega))
  simp [anchor_to_blockchain, hen, hsub, hwait]

/-- Witness for the amended C6. -/
theorem anchor_timeout_fails_witness :
    LedgerEnv.blockchain_enabled
      { blockchain_enabled := true
        submitResult := .ok "0xabc"
        receiptAt := fun _ => none
        receiptOf := fun _ => none
        current_block := 0 } = true ∧
    LedgerEnv.submitResult
      { blockchain_enabled := true
        submitResult := .ok "0xabc"
        receiptAt := fun _ => none
        receiptOf := fun _ => none
        current_block := 0 } = .ok "0xabc" ∧
    (anchor_to_blockchain
      { blockchain_enabled := true
        submitResult := .ok "0xabc"
        receiptAt := fun _ => none
        receiptOf := fun _ => none
        current_block := 0 } "root1" "sim1").anchor.status = .FAILED :=
  ⟨rfl, rfl,
    (anchor_timeout_fails
      { blockchain_enabled := true
        submitResult := .ok "0xabc"
        receiptAt := fun _ => none
        receiptOf := fun _ => none
        current_block := 0 } "root1" "sim1" "0xabc" rfl rfl
      (by decide)).1⟩

/-! ### Anchor state machine lemmas (claim C9) -/

theorem anchor_run_sim (env : LedgerEnv) (root sim_tx : String)
    (hen : env.blockchain_enabled = false) :
    anchor_to_blockchain env root sim_tx =
      { anchor :=
          { root_hash := root, network_name := "simulated",
            status := .CONFIRMED, tx_hash := some sim_tx,
            block_number := some 1, retry_count := 0, last_error := none }
        trace := [.CONFIRMED]
        outcome := .ok () } := by
  simp [anchor_to_blockchain, hen]

theorem anchor_run_submit_error (env : LedgerEnv) (root sim_tx e : String)
    (hen : env.blockchain_enabled = true) (hsub : env.submitResult = .error e) :
    anchor_to_blockchain env root sim_tx =
      { anchor :=
          { root_hash := root, network_name := "ethereum",
            status := .FAILED, tx_hash := none,
            block_number := none, retry_count := 1, last_error := some e }
        trace := [.PENDING, .FAILED]
        outcome := .error (.submitFailed e) } := by
  simp [anchor_to_blockchain, hen, hsub]

theorem anchor_run_wait_error (env : LedgerEnv) (root sim_tx tx : String) (err : AnchorErr)
    (hen : env.blockchain_enabled = true) (hsub : env.submitResult = .ok tx)
    (hw : wait_for_confirmation env tx = .error err) :
    anchor_to_blockchain env root sim_tx =
      { anchor :=
          { root_hash := root, network_name := "ethereum",
            status := .FAILED, tx_hash := some tx,
            block_number := none, retry_count := 1, last_error := some err.message }
        trace := [.PENDING, .SUBMITTED, .FAILED]
        outcome := .error err } := by
  simp [anchor_to_blockchain, hen, hsub, hw]

theorem anchor_run_confirmed (env : LedgerEnv) (root sim_tx tx : String) (r : ReceiptRec)
    (hen : env.blockchain_enabled = true) (hsub : env.submitResult = .ok tx)
    (hw : wait_for_confirmation env tx = .ok r) :
    anchor_to_blockchain env root sim_tx =
      { anchor :=
          { root_hash := root, network_name := "ethereum",
            status := .CONFIRMED, tx_hash := some tx,
            block_number := r.blockNumber, retry_count := 0, last_error := none }
        trace := [.PENDING, .SUBMITTED, .CONFIRMED]
        outcome := .ok () } := by
  simp [anchor_to_blockchain, hen, hsub, hw]

/-- `verify_anchor` either leaves the row unchanged or moves a
non-simulated row with a stored transaction hash to FINALIZED. -/
theorem verify_anchor_cases (env : LedgerEnv) (a : AnchorRec) :
    (verify_anchor env a).1 = a ∨
    ((verify_anchor env a).1 = { a with status := .FINALIZED } ∧
      a.network_name ≠ "simulated" ∧ a.tx_hash ≠ none) := by
  unfold verify_anchor
  by_cases hsim : a.network_name = "simulated"
  · left; rw [if_pos hsim]
  · rw [if_neg hsim]
    cases htx : a.tx_hash with
    | none => left; rfl
    | some tx =>
        cases hrc : env.receiptOf tx with
        | none => left; simp [hrc]
        | some r =>
            cases hbn : r.blockNumber with
            | none => left; simp [hrc, hbn]
            | some bn =>
                by_cases hc : env.current_block - bn ≥ 12 ∧ a.status ≠ .FINALIZED
                · right
                  refine ⟨?_, hsim, by simp [htx]⟩
                  simp only [hrc, hbn]
                  rw [if_pos hc]
                · left
                  simp only [hrc, hbn]
                  rw [if_neg hc]

theorem chainLt_finalized (s : AnchorStatus) : chainLt .FINALIZED s = false := by
  cases s <;> rfl

theorem chainLt_irrefl (s : AnchorStatus) : chainLt s s = false := by
  cases s <;> rfl

/-- The invariant of every reachable anchor history: the row's status is
the last history entry, no entry is chain-above the current status, the
history never moves chain-backwards, FINALIZED implies an earlier
SUBMITTED, and a non-simulated row with a stored transaction hash was
SUBMITTED. -/
theorem anchor_reachable_inv (a : AnchorRec) (tr : List AnchorStatus)
    (h : AnchorReachable a tr) :
    tr.getLast? = some a.status ∧
    (∀ e ∈ tr, chainLt a.status e = false) ∧
    tr.Pairwise (fun x y => chainLt y x = false) ∧
    (AnchorStatus.FINALIZED ∈ tr → AnchorStatus.SUBMITTED ∈ tr) ∧
    ((a.network_name ≠ "simulated" ∧ a.tx_hash ≠ none) → AnchorStatus.SUBMITTED ∈ tr) := by
  induction h with
  | created env root sim_tx =>
      by_cases hen : env.blockchain_enabled
      · cases hsub : env.submitResult with
        | error e =>
            rw [anchor_run_submit_error env root sim_tx e hen hsub]
            dsimp only
            refine ⟨rfl, ?_, by decide, by decide, ?_⟩
            · intro x hx; fin_cases hx <;> rfl
            · intro ⟨_, ht⟩; exact absurd rfl ht
        | ok tx =>
            cases hw : wait_for_confirmation env tx with
            | error err =>
                rw [anchor_run_wait_error env root sim_tx tx err hen hsub hw]
                dsimp only
                refine ⟨rfl, ?_, by decide, by decide, fun _ => by decide⟩
                intro x hx; fin_cases hx <;> rfl
            | ok receipt =>
                rw [anchor_run_confirmed env root sim_tx tx receipt hen hsub hw]
                dsimp only
                refine ⟨rfl, ?_, by decide, by decide, fun _ => by decide⟩
                intro x hx; fin_cases hx <;> rfl
      · rw [anchor_run_sim env root sim_tx (by simpa using hen)]
        dsimp only
        refine ⟨rfl, ?_, by decide, by decide, ?_⟩
        · intro x hx; fin_cases hx; rfl
        · intro ⟨hn, _⟩; exact absurd rfl hn
  | verified env a tr hr ih =>
      obtain ⟨hlast, hlastok, hpw, hfin, htx⟩ := ih
      have hmem_last : a.status ∈ tr := by
        obtain ⟨hne, heq⟩ := List.mem_getLast?_eq_getLast (l := tr) (x := a.status)
          (by rw [hlast]; rfl)
        rw [heq]; exact List.getLast_mem hne
      rcases verify_anchor_cases env a with hv | ⟨hv, hnet, htxs⟩
      · rw [hv]
        refine ⟨List.getLast?_concat _, ?_, ?_, ?_, fun hc => List.mem_append_left _ (htx hc)⟩
        · intro x hx
          rcases List.mem_append.mp hx with hx | hx
          · exact hlastok x hx
          · simp at hx; rw [hx]; exact chainLt_irrefl _
        · rw [List.pairwise_append]
          exact ⟨hpw, List.pairwise_singleton _ _, by
            intro x hx y hy
            simp at hy; rw [hy]
            exact hlastok x hx⟩
        · intro hmem
          rcases List.mem_append.mp hmem with hm | hm
          · exact List.mem_append_left _ (hfin hm)
          · simp at hm
            have : AnchorStatus.FINALIZED ∈ tr := by rw [hm]; exact hmem_last
            exact List.mem_append_left _ (hfin this)
      · rw [hv]
        have hsubm : AnchorStatus.SUBMITTED ∈ tr := htx ⟨hnet, htxs⟩
        refine ⟨List.getLast?_concat _, ?_, ?_, fun _ => List.mem_append_left _ hsubm,
          fun _ => List.mem_append_left _ hsubm⟩
        · intro x hx
          rcases List.mem_append.mp hx with hx | hx
          · exact chainLt_finalized x
          · simp at hx; rw [hx]; exact chainLt_irrefl _
        · rw [List.pairwise_append]
          refine ⟨hpw, List.pairwise_singleton _ _, ?_⟩
          intro x hx y hy
          simp at hy; rw [hy]
          exact chainLt_finalized x

/-- C9 counterexample: a reachable history in which the anchor times out
(FAILED without ever being CONFIRMED) and a later `verify_anchor`, seeing
a receipt with 12 confirmations, moves it straight to FINALIZED: the
history is [PENDING, SUBMITTED, FAILED, FINALIZED] with no CONFIRMED, so
FINALIZED does not imply a previous CONFIRMED and `verify_anchor`
finalizes an anchor that is not CONFIRMED. -/
theorem anchor_finalized_without_confirmed :
    AnchorReachable
      (verify_anchor
        { blockchain_enabled := true
          submitResult := .ok "0xabc"
          receiptAt := fun _ => none
          receiptOf := fun _ => some { blockNumber := some 100, gasUsed := some 21000 }
          current_block := 112 }
        (anchor_to_blockchain
          { blockchain_enabled := true
            submitResult := .ok "0xabc"
            receiptAt := fun _ => none
            receiptOf := fun _ => none
            current_block := 0 } "root1" "sim1").anchor).1
      ((anchor_to_blockchain
          { blockchain_enabled := true
            submitResult := .ok "0xabc"
            receiptAt := fun _ => none
            receiptOf := fun _ => none
            current_block := 0 } "root1" "sim1").trace ++
        [(verify_anchor
          { blockchain_enabled := true
            submitResult := .ok "0xabc"
            receiptAt := fun _ => none
            receiptOf := fun _ => some { blockNumber := some 100, gasUsed := some 21000 }
            current_block := 112 }
          (anchor_to_blockchain
            { blockchain_enabled := true
              submitResult := .ok "0xabc"
              receiptAt := fun _ => none
              receiptOf := fun _ => none
              current_block := 0 } "root1" "sim1").anchor).1.status]) ∧
    (verify_anchor
      { blockchain_enabled := true
        submitResult := .ok "0xabc"
        receiptAt := fun _ => none
        receiptOf := fun _ => some { blockNumber := some 100, gasUsed := some 21000 }
        current_block := 112 }
      (anchor_to_blockchain
        { blockchain_enabled := true
          submitResult := .ok "0xabc"
          receiptAt := fun _ => none
          receiptOf := fun _ => none
          current_block := 0 } "root1" "sim1").anchor).1.status = .FINALIZED ∧
    ((anchor_to_blockchain
        { blockchain_enabled := true
          submitResult := .ok "0xabc"
          receiptAt := fun _ => none
          receiptOf := fun _ => none
          current_block := 0 } "root1" "sim1").trace ++
      [(verify_anchor
        { blockchain_enabled := true
          submitResult := .ok "0xabc"
          receiptAt := fun _ => none
          receiptOf := fun _ => some { blockNumber := some 100, gasUsed := some 21000 }
          current_block := 112 }
        (anchor_to_blockchain
          { blockchain_enabled := true
            submitResult := .ok "0xabc"
            receiptAt := fun _ => none
            receiptOf := fun _ => none
            current_block := 0 } "root1" "sim1").anchor).1.status]) =
      [.PENDING, .SUBMITTED, .FAILED, .FINALIZED] ∧
    AnchorStatus.CONFIRMED ∉
      ([.PENDING, .SUBMITTED, .FAILED, .FINALIZED] : List AnchorStatus) := by
  refine ⟨.verified _ _ _ (.created _ _ _), rfl, rfl, by decide⟩

/-- C9 as amended: along every reachable anchor history the state machine
never moves from a later state back to an earlier one of the progression
PENDING < SUBMITTED < CONFIRMED < FINALIZED, and a FINALIZED anchor was
previously SUBMITTED; but FINALIZED does not require a previous CONFIRMED
(`verify_anchor` finalizes any non-FINALIZED anchor whose receipt shows
at least 12 confirmations, including a FAILED one), and a simulated
anchor is created CONFIRMED without ever being SUBMITTED. -/
theorem anchor_state_machine_progression (a : AnchorRec) (tr : List AnchorStatus)
    (h : AnchorReachable a tr) :
    tr.Pairwise (fun x y => chainLt y x = false) ∧
    (AnchorStatus.FINALIZED ∈ tr → AnchorStatus.SUBMITTED ∈ tr) :=
  ⟨(anchor_reachable_inv a tr h).2.2.1, (anchor_reachable_inv a tr h).2.2.2.1⟩

/-- Witness for the amended C9, on a freshly created simulated anchor. -/
theorem anchor_state_machine_progression_witness :
    List.Pairwise (fun x y => chainLt y x = false)
      (anchor_to_blockchain
        { blockchain_enabled := false
          submitResult := .error "disabled"
          receiptAt := fun _ => none
          receiptOf := fun _ => none
          current_block := 0 } "root1" "sim1").trace ∧
    (AnchorStatus.FINALIZED ∈
        (anchor_to_blockchain
          { blockchain_enabled := false
            submitResult := .error "disabled"
            receiptAt := fun _ => none
            receiptOf := fun _ => none
            current_block := 0 } "root1" "sim1").trace →
      AnchorStatus.SUBMITTED ∈
        (anchor_to_blockchain
          { blockchain_enabled := false
            submitResult := .error "disabled"
            receiptAt := fun _ => none
            receiptOf := fun _ => none
            current_block := 0 } "root1" "sim1").trace) :=
  anchor_state_machine_progression _ _ (.created _ "root1" "sim1")

/-! ### GDPR deletion (claims C8 and C10) -/

/-- C10: when `request_deletion` finds no matching non-deleted record it
returns status "completed" with zero affected decisions, an empty
tombstone id list, no deletion proof hash and no completion timestamp,
sets `retention_until` to the current time (not now plus the retention
period), and leaves the store untouched: no tombstone, no new tree, no
modified record. -/
theorem request_deletion_no_match (blockchain_enabled : Bool) (retention_days : Nat)
    (ledger : LedgerEnv) (env : DeletionRunEnv) (s : GdprState) (req : DeletionRequest)
    (hnone : s.logs.filter (matchesDeletion req) = []) :
    request_deletion blockchain_enabled retention_days ledger env s req =
      (s,
       { deletion_id := env.deletion_id
         status := "completed"
         requested_at := req.request_date
         completed_at := none
         affected_decisions := 0
         tombstone_ids := []
         deletion_proof_hash := none
         retention_until := env.now }) := by
  unfold request_deletion
  rw [hnone]
  rfl

/-- Witness for C10: a store holding only another user's record. -/
theorem request_deletion_no_match_witness :
    ({ logs := [sampleLogOtherUser], trees := [["a", "b"]], tombstones := [] } :
        GdprState).logs.filter (matchesDeletion sampleReq) = [] ∧
    request_deletion false 30 sampleLedgerOff sampleEnv
      { logs := [sampleLogOtherUser], trees := [["a", "b"]], tombstones := [] } sampleReq =
      ({ logs := [sampleLogOtherUser], trees := [["a", "b"]], tombstones := [] },
       { deletion_id := sampleEnv.deletion_id
         status := "completed"
         requested_at := sampleReq.request_date
         completed_at := none
         affected_decisions := 0
         tombstone_ids := []
         deletion_proof_hash := none
         retention_until := sampleEnv.now }) :=
  ⟨rfl,
    request_deletion_no_match false 30 sampleLedgerOff sampleEnv
      { logs := [sampleLogOtherUser], trees := [["a", "b"]], tombstones := [] }
      sampleReq rfl⟩

/-- C8: a deletion run changes at most the `is_gdpr_deleted` and
`gdpr_deleted_at` fields of each stored record — identifiers, all four
hashes and the `merkle_root` field are preserved pairwise — and only
appends to the Merkle tree store, so every pre-existing tree is still
present afterwards and every inclusion proof generated against a
pre-existing root (for a deleted record's leaf or any other) still
verifies. -/
theorem request_deletion_preserves (blockchain_enabled : Bool) (retention_days : Nat)
    (ledger : LedgerEnv) (env : DeletionRunEnv) (s : GdprState) (req : DeletionRequest) :
    List.Forall₂
      (fun l l' =>
        l'.decision_id = l.decision_id ∧
        l'.input_hash = l.input_hash ∧
        l'.output_hash = l.output_hash ∧
        l'.context_hash = l.context_hash ∧
        l'.full_hash = l.full_hash ∧
        l'.merkle_root = l.merkle_root)
      s.logs (request_deletion blockchain_enabled retention_days ledger env s req).1.logs ∧
    (∃ appended, (request_deletion blockchain_enabled retention_days ledger env s req).1.trees
       = s.trees ++ appended) ∧
    (∀ t ∈ s.trees,
       t ∈ (request_deletion blockchain_enabled retention_days ledger env s req).1.trees ∧
       ∀ i, i < t.length →
         verify_merkle_proof (generate_merkle_proof t i).leaf_hash
           (generate_merkle_proof t i).root_hash (generate_merkle_proof t i).proof_path = true) := by
  unfold request_deletion
  by_cases hempty : (s.logs.filter (matchesDeletion req)).isEmpty
  · rw [if_pos hempty]
    refine ⟨?_, ⟨[], by simp⟩, ?_⟩
    · exact List.forall₂_same.mpr (fun l _ => ⟨rfl, rfl, rfl, rfl, rfl, rfl⟩)
    · intro t ht
      exact ⟨ht, fun i hi => merkle_roundtrip_aux t i hi⟩
  · rw [if_neg hempty]
    dsimp only
    refine ⟨?_, ⟨_, rfl⟩, ?_⟩
    · rw [List.forall₂_map_right_iff]
      refine List.forall₂_same.mpr (fun l _ => ?_)
      by_cases hm : matchesDeletion req l
      · simp [hm]
      · simp [hm]
    · intro t ht
      exact ⟨List.mem_append_left _ ht, fun i hi => merkle_roundtrip_aux t i hi⟩

/-- Witness for C8: deleting user u1's record while the store holds a
two-leaf tree. -/
theorem request_deletion_preserves_witness :
    List.Forall₂
      (fun l l' =>
        l'.decision_id = l.decision_id ∧
        l'.input_hash = l.input_hash ∧
        l'.output_hash = l.output_hash ∧
        l'.context_hash = l.context_hash ∧
        l'.full_hash = l.full_hash ∧
        l'.merkle_root = l.merkle_root)
      ({ logs := [sampleLog1], trees := [["a", "b"]], tombstones := [] } : GdprState).logs
      (request_deletion false 30 sampleLedgerOff sampleEnv
        { logs := [sampleLog1], trees := [["a", "b"]], tombstones := [] } sampleReq).1.logs ∧
    (∃ appended,
      (request_deletion false 30 sampleLedgerOff sampleEnv
        { logs := [sampleLog1], trees := [["a", "b"]], tombstones := [] } sampleReq).1.trees
        = ({ logs := [sampleLog1], trees := [["a", "b"]], tombstones := [] } :
            GdprState).trees ++ appended) ∧
    (∀ t ∈ ({ logs := [sampleLog1], trees := [["a", "b"]], tombstones := [] } :
        GdprState).trees,
       t ∈ (request_deletion false 30 sampleLedgerOff sampleEnv
         { logs := [sampleLog1], trees := [["a", "b"]], tombstones := [] } sampleReq).1.trees ∧
       ∀ i, i < t.length →
         verify_merkle_proof (generate_merkle_proof t i).leaf_hash
           (generate_merkle_proof t i).root_hash (generate_merkle_proof t i).proof_path = true) :=
  request_deletion_preserves false 30 sampleLedgerOff sampleEnv
    { logs := [sampleLog1], trees := [["a", "b"]], tombstones := [] } sampleReq

/-! ### Integrity report (claim C3) -/

theorem reportScan_characterization (logs : List AuditLogRec) :
    (reportScan logs).1 = (logs.filter logVerified).length ∧
    (reportScan logs).2.1 = (logs.filter logTampered).length ∧
    (reportScan logs).2.2 = (logs.filter logTampered).map failedEntryOf := by
  induction logs with
  | nil => exact ⟨rfl, rfl, rfl⟩
  | cons log rest ih =>
      obtain ⟨ih1, ih2, ih3⟩ := ih
      by_cases hdel : log.is_gdpr_deleted
      · have ht : logTampered log = false := by simp [logTampered, hdel]
        have hv : logVerified log = false := by simp [logVerified, hdel]
        simp [reportScan, hdel, ht, hv, ih1, ih2, ih3]
      · cases hint : log.interaction with
        | none =>
            have ht : logTampered log = false := by simp [logTampered, hdel, hint]
            have hv : logVerified log = false := by simp [logVerified, hdel, hint]
            simp [reportScan, hdel, hint, ht, hv, ih1, ih2, ih3]
        | some it =>
            by_cases hok : recomputeValid log it
            · have ht : logTampered log = false := by simp [logTampered, hdel, hint, hok]
              have hv : logVerified log = true := by simp [logVerified, hdel, hint, hok]
              simp [reportScan, hdel, hint, hok, ht, hv, ih1, ih2, ih3]
            · have ht : logTampered log = true := by simp [logTampered, hdel, hint, hok]
              have hv : logVerified log = false := by simp [logVerified, hdel, hint, hok]
              simp [reportScan, hdel, hint, hok, ht, hv, ih1, ih2, ih3]

/-- C3: the integrity report's failed list is exactly the non-deleted
records with an attached payload whose recomputed full hash differs from
the stored one (in scan order, each entry carrying the record's
`decision_id`); for a record with payload and context, being counted
tampered is equivalent to the hash check failing; and in a batch where
exactly one record's stored `full_hash` was altered, the report shows
exactly one tampered entry, carrying that record's `decision_id`. -/
theorem integrity_report_tampered_iff (logs : List AuditLogRec) :
    ((get_integrity_report logs).failed_verifications =
       (logs.filter logTampered).map failedEntryOf) ∧
    ((get_integrity_report logs).tampered_logs = (logs.filter logTampered).length) ∧
    ((get_integrity_report logs).verified_logs = (logs.filter logVerified).length) ∧
    (∀ (log : AuditLogRec) (it : InteractionRec) (c : JsonObj),
       log.is_gdpr_deleted = false → log.interaction = some it → log.context = some c →
       (logTampered log = true ↔
         verify_audit_hash it.prompt it.response (contextOf log) (metadataOf log)
           log.full_hash = false)) ∧
    (∀ (pre post : List AuditLogRec) (log : AuditLogRec),
       (∀ l ∈ pre, logTampered l = false) → (∀ l ∈ post, logTampered l = false) →
       logTampered log = true →
       (get_integrity_report (pre ++ log :: post)).failed_verifications =
         [failedEntryOf log] ∧
       (get_integrity_report (pre ++ log :: post)).tampered_logs = 1 ∧
       (failedEntryOf log).decision_id = log.decision_id) := by
  obtain ⟨h1, h2, h3⟩ := reportScan_characterization logs
  refine ⟨h3, h2, h1, ?_, ?_⟩
  · intro log it c hdel hint _
    simp [logTampered, hdel, hint, recomputeValid, Bool.not_eq_true']
  · intro pre post log hpre hpost htamp
    have hpre0 : pre.filter logTampered = [] :=
      List.filter_eq_nil_iff.mpr (by intro a ha; simp [hpre a ha])
    have hpost0 : post.filter logTampered = [] :=
      List.filter_eq_nil_iff.mpr (by intro a ha; simp [hpost a ha])
    have hfe : (pre ++ log :: post).filter logTampered = [log] := by
      rw [List.filter_append, hpre0]
      simp [List.filter_cons, htamp, hpost0]
    obtain ⟨g1, g2, g3⟩ := reportScan_characterization (pre ++ log :: post)
    refine ⟨?_, ?_, rfl⟩
    · show (reportScan (pre ++ log :: post)).2.2 = _
      rw [g3, hfe]
      rfl
    · show (reportScan (pre ++ log :: post)).2.1 = 1
      rw [g2, hfe]
      rfl

/-- Witness for C3: a batch of one honestly captured record and one
record whose stored `full_hash` was altered — the report shows exactly
one tampered entry, with the altered record's `decision_id`. -/
theorem integrity_report_tampered_iff_witness :
    (∀ l ∈ [sampleLog1], logTampered l = false) ∧
    logTampered sampleLogTampered = true ∧
    (get_integrity_report ([sampleLog1] ++ sampleLogTampered :: [])).failed_verifications =
      [failedEntryOf sampleLogTampered] ∧
    (get_integrity_report ([sampleLog1] ++ sampleLogTampered :: [])).tampered_logs = 1 ∧
    (failedEntryOf sampleLogTampered).decision_id = sampleLogTampered.decision_id :=
  have hpre : ∀ l ∈ [sampleLog1], logTampered l = false := by decide
  have htamp : logTampered sampleLogTampered = true := by decide
  ⟨hpre, htamp,
    ((integrity_report_tampered_iff []).2.2.2.2 [sampleLog1] [] sampleLogTampered hpre
      (by simp) htamp).1,
    ((integrity_report_tampered_iff []).2.2.2.2 [sampleLog1] [] sampleLogTampered hpre
      (by simp) htamp).2.1,
    ((integrity_report_tampered_iff []).2.2.2.2 [sampleLog1] [] sampleLogTampered hpre
      (by simp) htamp).2.2⟩

/-! ### Canonical hashing (claim C1) -/
theorem charListLt_asymm (a : List Char) :
    ∀ b, charListLt a b = true → charListLt b a = false := by
  induction a with
  | nil =>
      intro b hab
      cases b with
      | nil => simp [charListLt] at hab
      | cons y bs => simp [charListLt]
  | cons x as ih =>
      intro b hab
      cases b with
      | nil => simp [charListLt] at hab
      | cons y bs =>
          simp only [charListLt] at hab ⊢
          by_cases hxy : x.toNat < y.toNat
          · simp [hxy, show ¬ y.toNat < x.toNat from by omega]
          · have hyx : ¬ y.toNat < x.toNat := by
              intro h; simp [hxy, h] at hab
            simp [hxy, hyx] at hab ⊢
            exact ih bs hab

theorem charListLt_trans (a : List Char) :
    ∀ b c, charListLt a b = true → charListLt b c = true → charListLt a c = true := by
  induction a with
  | nil =>
      intro b c hab hbc
      cases b with
      | nil => simp [charListLt] at hab
      | cons y bs =>
          cases c with
          | nil => simp [charListLt] at hbc
          | cons z cs => simp [charListLt]
  | cons x as ih =>
      intro b c hab hbc
      cases b with
      | nil => simp [charListLt] at hab
      | cons y bs =>
          cases c with
          | nil => simp [charListLt] at hbc
          | cons z cs =>
              simp only [charListLt] at hab hbc ⊢
              by_cases hxy : x.toNat < y.toNat
              · by_cases hyz : y.toNat < z.toNat
                · simp [show x.toNat < z.toNat from by omega]
                · have hzy : ¬ z.toNat < y.toNat := by
                    intro h; simp [hyz, h] at hbc
                  simp [show x.toNat < z.toNat from by omega]
              · have hyx : ¬ y.toNat < x.toNat := by
                  intro h; simp [hxy, h] at hab
                by_cases hyz : y.toNat < z.toNat
                · simp [show x.toNat < z.toNat from by omega]
                · have hzy : ¬ z.toNat < y.toNat := by
                    intro h; simp [hyz, h] at hbc
                  have hxz : ¬ x.toNat < z.toNat := by omega
                  have hzx : ¬ z.toNat < x.toNat := by omega
                  simp [hxy, hyx, hyz, hzy, hxz, hzx] at hab hbc ⊢
                  exact ih bs cs hab hbc

theorem charListLt_total (a : List Char) :
    ∀ b, a ≠ b → charListLt a b = true ∨ charListLt b a = true := by
  induction a with
  | nil =>
      intro b hne
      cases b with
      | nil => exact absurd rfl hne
      | cons y bs => left; simp [charListLt]
  | cons x as ih =>
      intro b hne
      cases b with
      | nil => right; simp [charListLt]
      | cons y bs =>
          by_cases hxy : x.toNat < y.toNat
          · left; simp [charListLt, hxy]
          · by_cases hyx : y.toNat < x.toNat
            · right; simp [charListLt, hyx]
            · have hx : x = y := by
                have h : x.toNat = y.toNat := by omega
                rw [← Char.ofNat_toNat x, ← Char.ofNat_toNat y, h]
              subst hx
              have hne2 : as ≠ bs := by
                intro h; exact hne (by rw [h])
              rcases ih bs hne2 with h | h
              · left; simp [charListLt, h]
              · right; simp [charListLt, h]

theorem strLt_asymm (a b : String) (h : strLt a b = true) : strLt b a = false :=
  charListLt_asymm a.data b.data h

theorem strLt_trans (a b c : String) (h1 : strLt a b = true) (h2 : strLt b c = true) :
    strLt a c = true :=
  charListLt_trans a.data b.data c.data h1 h2

theorem strLt_total (a b : String) (hne : a ≠ b) :
    strLt a b = true ∨ strLt b a = true := by
  apply charListLt_total
  intro h
  apply hne
  cases a with
  | mk da =>
      cases b with
      | mk db => cases h; rfl

theorem insertSorted_comm_lt (k1 k2 : String) (v1 v2 : Json)
    (hlt : strLt k1 k2 = true) :
    ∀ o : JsonObj, JsonObj.insertSorted k1 v1 (JsonObj.insertSorted k2 v2 o)
      = JsonObj.insertSorted k2 v2 (JsonObj.insertSorted k1 v1 o)
  | .nil => by
      have h21 : strLt k2 k1 = false := strLt_asymm k1 k2 hlt
      simp [JsonObj.insertSorted, h21, hlt]
  | .cons k' v' rest => by
      have ih := insertSorted_comm_lt k1 k2 v1 v2 hlt rest
      by_cases c2 : strLt k' k2 = true
      · by_cases c1 : strLt k' k1 = true
        · simp [JsonObj.insertSorted, c1, c2, ih]
        · simp only [JsonObj.insertSorted, c2, if_true, c1]
          simp [JsonObj.insertSorted, c1, c2, hlt]
      · by_cases c1 : strLt k' k1 = true
        · exact absurd (strLt_trans k' k1 k2 c1 hlt) (by simp [c2])
        · have h21 : strLt k2 k1 = false := strLt_asymm k1 k2 hlt
          simp [JsonObj.insertSorted, c1, c2, hlt, h21]

theorem insertSorted_comm (k1 k2 : String) (v1 v2 : Json) (hne : k1 ≠ k2)
    (o : JsonObj) :
    JsonObj.insertSorted k1 v1 (JsonObj.insertSorted k2 v2 o)
      = JsonObj.insertSorted k2 v2 (JsonObj.insertSorted k1 v1 o) := by
  rcases strLt_total k1 k2 hne with h | h
  · exact insertSorted_comm_lt k1 k2 v1 v2 h o
  · exact (insertSorted_comm_lt k2 k1 v2 v1 h o).symm

theorem canon_ofList_cons (k : String) (v : Json) (l : List (String × Json)) :
    JsonObj.canon (JsonObj.ofList ((k, v) :: l)) =
      JsonObj.insertSorted k (Json.canon v) (JsonObj.canon (JsonObj.ofList l)) :=
  rfl

theorem canon_ofList_perm (l1 l2 : List (String × Json)) (hperm : l1.Perm l2) :
    (l1.map Prod.fst).Nodup →
      JsonObj.canon (JsonObj.ofList l1) = JsonObj.canon (JsonObj.ofList l2) := by
  induction hperm with
  | nil => intro _; rfl
  | cons x hp ih =>
      intro hnd
      obtain ⟨x1, x2⟩ := x
      rw [canon_ofList_cons, canon_ofList_cons]
      rw [ih (by simpa using (List.nodup_cons.mp (by simpa using hnd)).2)]
  | swap x y l =>
      intro hnd
      obtain ⟨x1, x2⟩ := x
      obtain ⟨y1, y2⟩ := y
      rw [canon_ofList_cons, canon_ofList_cons, canon_ofList_cons, canon_ofList_cons]
      apply insertSorted_comm
      simp at hnd
      exact fun h => hnd.1.1 (by rw [h])
  | trans p1 p2 ih1 ih2 =>
      intro hnd
      rw [ih1 hnd]
      apply ih2
      exact ((p1.map Prod.fst).nodup_iff).mp hnd

theorem hash_dict_perm (l1 l2 : List (String × Json)) (hperm : l1.Perm l2)
    (hnd : (l1.map Prod.fst).Nodup) :
    hash_dict (JsonObj.ofList l1) = hash_dict (JsonObj.ofList l2) := by
  unfold hash_dict canonicalDumps
  rw [show Json.canon (.obj (JsonObj.ofList l1)) = .obj (JsonObj.canon (JsonObj.ofList l1))
      from rfl,
    show Json.canon (.obj (JsonObj.ofList l2)) = .obj (JsonObj.canon (JsonObj.ofList l2))
      from rfl,
    canon_ofList_perm l1 l2 hperm hnd]

theorem compute_audit_hash_full (input output : String) (ctx md : JsonObj) :
    compute_audit_hash input output ctx md =
      { input_hash := hash_string input
        output_hash := hash_string output
        context_hash := hash_dict ctx
        full_hash := hash_dict (JsonObj.ofList
          [("input_hash", .str (hash_string input)),
           ("output_hash", .str (hash_string output)),
           ("context_hash", .str (hash_dict ctx)),
           ("metadata", .obj md)]) } :=
  rfl

theorem compute_audit_hash_perm (input output : String)
    (ctx ctx' md md' : List (String × Json))
    (hctx : ctx.Perm ctx') (hnc : (ctx.map Prod.fst).Nodup)
    (hmd : md.Perm md') (hnm : (md.map Prod.fst).Nodup) :
    compute_audit_hash input output (JsonObj.ofList ctx) (JsonObj.ofList md) =
      compute_audit_hash input output (JsonObj.ofList ctx') (JsonObj.ofList md') := by
  have hch : hash_dict (JsonObj.ofList ctx) = hash_dict (JsonObj.ofList ctx') :=
    hash_dict_perm ctx ctx' hctx hnc
  have hmc : JsonObj.canon (JsonObj.ofList md) = JsonObj.canon (JsonObj.ofList md') :=
    canon_ofList_perm md md' hmd hnm
  rw [compute_audit_hash_full, compute_audit_hash_full, hch]
  have hfh : hash_dict (JsonObj.ofList
      [("input_hash", .str (hash_string input)),
       ("output_hash", .str (hash_string output)),
       ("context_hash", .str (hash_dict (JsonObj.ofList ctx'))),
       ("metadata", .obj (JsonObj.ofList md))]) =
    hash_dict (JsonObj.ofList
      [("input_hash", .str (hash_string input)),
       ("output_hash", .str (hash_string output)),
       ("context_hash", .str (hash_dict (JsonObj.ofList ctx'))),
       ("metadata", .obj (JsonObj.ofList md'))]) := by
    have hco : JsonObj.canon (JsonObj.ofList
        [("input_hash", .str (hash_string input)),
         ("output_hash", .str (hash_string output)),
         ("context_hash", .str (hash_dict (JsonObj.ofList ctx'))),
         ("metadata", .obj (JsonObj.ofList md))]) =
      JsonObj.canon (JsonObj.ofList
        [("input_hash", .str (hash_string input)),
         ("output_hash", .str (hash_string output)),
         ("context_hash", .str (hash_dict (JsonObj.ofList ctx'))),
         ("metadata", .obj (JsonObj.ofList md'))]) := by
      rw [canon_ofList_cons, canon_ofList_cons, canon_ofList_cons, canon_ofList_cons,
        canon_ofList_cons, canon_ofList_cons, canon_ofList_cons, canon_ofList_cons]
      rw [show Json.canon (.obj (JsonObj.ofList md)) = .obj (JsonObj.canon (JsonObj.ofList md))
          from rfl,
        show Json.canon (.obj (JsonObj.ofList md')) = .obj (JsonObj.canon (JsonObj.ofList md'))
          from rfl, hmc]
    exact congrArg (fun o => hash_string (String.mk (Json.dumpChars (.obj o)))) hco
  rw [hfh]

theorem keccakRound_length (rc : Nat) (s : List Nat) : (keccakRound rc s).length = 25 := rfl

theorem keccakF_length (s : List Nat) : (keccakF s).length = 25 := rfl

theorem absorbBlock_length (st block : List Nat) : (absorbBlock st block).length = 25 := rfl

theorem foldl_absorb_length :
    ∀ (blocks : List (List Nat)) (st : List Nat), st.length = 25 →
      (blocks.foldl absorbBlock st).length = 25 := by
  intro blocks
  induction blocks with
  | nil => intro st h; exact h
  | cons b bs ih => intro st _; exact ih (absorbBlock st b) (absorbBlock_length st b)

theorem flatMap_laneToBytes_length (l : List Nat) :
    (l.flatMap laneToBytes).length = 8 * l.length := by
  induction l with
  | nil => rfl
  | cons x xs ih => simp [List.flatMap_cons, ih, laneToBytes]; ring

theorem sha3_256_bytes_length (msg : List Nat) : (sha3_256_bytes msg).length = 32 := by
  unfold sha3_256_bytes
  rw [flatMap_laneToBytes_length, List.length_take,
    foldl_absorb_length _ _ (by simp)]
  rfl

theorem sha3_256_bytes_lt (msg : List Nat) :
    ∀ b ∈ sha3_256_bytes msg, b < 256 := by
  intro b hb
  unfold sha3_256_bytes at hb
  rcases List.mem_flatMap.mp hb with ⟨lane, _, hbl⟩
  simp only [laneToBytes, List.mem_cons, List.not_mem_nil, or_false] at hbl
  rcases hbl with h | h | h | h | h | h | h | h <;> subst h <;>
    exact Nat.mod_lt _ (by omega)

theorem hexChar_isLowerHex (n : Nat) (h : n < 16) : isLowerHexChar (hexChar n) := by
  interval_cases n <;> simp [hexChar, isLowerHexChar]

theorem hexDigest_length (bytes : List Nat) :
    (hexDigest bytes).length = 2 * bytes.length := by
  show (bytes.flatMap (fun b => [hexChar (b / 16), hexChar (b % 16)])).length = 2 * bytes.length
  induction bytes with
  | nil => rfl
  | cons x xs ih => simp [List.flatMap_cons, ih]; ring

theorem hexDigest_chars (bytes : List Nat) (h : ∀ b ∈ bytes, b < 256) :
    ∀ c ∈ (hexDigest bytes).data, isLowerHexChar c := by
  intro c hc
  show isLowerHexChar c
  have hc2 : c ∈ bytes.flatMap (fun b => [hexChar (b / 16), hexChar (b % 16)]) := hc
  rcases List.mem_flatMap.mp hc2 with ⟨b, hb, hcb⟩
  have hblt := h b hb
  simp only [List.mem_cons, List.not_mem_nil, or_false] at hcb
  rcases hcb with rfl | rfl
  · exact hexChar_isLowerHex _ (by omega)
  · exact hexChar_isLowerHex _ (Nat.mod_lt _ (by omega))

theorem hash_string_is64 (s : String) : is64LowerHex (hash_string s) := by
  constructor
  · show (hash_string s).length = 64
    unfold hash_string
    rw [show (hexDigest (sha3_256_bytes (utf8Encode s))).length =
        2 * (sha3_256_bytes (utf8Encode s)).length from hexDigest_length _,
      sha3_256_bytes_length]
  · exact hexDigest_chars _ (sha3_256_bytes_lt _)

/-- C1: `compute_audit_hash` is insensitive to dictionary insertion order
(any two context and metadata dictionaries that are equal as key-value
maps produce bit-identical results), its components are the SHA3-256 of
the UTF-8 encoded input and output, the canonical-JSON hash of the
context, and the canonical-JSON hash of the dictionary
`{input_hash, output_hash, context_hash, metadata}`, and every component
is a 64-character lowercase hexadecimal digest. -/
theorem compute_audit_hash_correct (input output : String)
    (ctx ctx' md md' : List (String × Json))
    (hctx : ctx.Perm ctx') (hnc : (ctx.map Prod.fst).Nodup)
    (hmd : md.Perm md') (hnm : (md.map Prod.fst).Nodup) :
    compute_audit_hash input output (JsonObj.ofList ctx) (JsonObj.ofList md) =
      compute_audit_hash input output (JsonObj.ofList ctx') (JsonObj.ofList md') ∧
    (compute_audit_hash input output (JsonObj.ofList ctx) (JsonObj.ofList md)).input_hash =
      hash_string input ∧
    (compute_audit_hash input output (JsonObj.ofList ctx) (JsonObj.ofList md)).output_hash =
      hash_string output ∧
    (compute_audit_hash input output (JsonObj.ofList ctx) (JsonObj.ofList md)).context_hash =
      hash_dict (JsonObj.ofList ctx) ∧
    (compute_audit_hash input output (JsonObj.ofList ctx) (JsonObj.ofList md)).full_hash =
      hash_dict (JsonObj.ofList
        [("input_hash", .str (hash_string input)),
         ("output_hash", .str (hash_string output)),
         ("context_hash", .str (hash_dict (JsonObj.ofList ctx))),
         ("metadata", .obj (JsonObj.ofList md))]) ∧
    is64LowerHex
      (compute_audit_hash input output (JsonObj.ofList ctx) (JsonObj.ofList md)).input_hash ∧
    is64LowerHex
      (compute_audit_hash input output (JsonObj.ofList ctx) (JsonObj.ofList md)).output_hash ∧
    is64LowerHex
      (compute_audit_hash input output (JsonObj.ofList ctx) (JsonObj.ofList md)).context_hash ∧
    is64LowerHex
      (compute_audit_hash input output (JsonObj.ofList ctx) (JsonObj.ofList md)).full_hash :=
  ⟨compute_audit_hash_perm input output ctx ctx' md md' hctx hnc hmd hnm,
    rfl, rfl, rfl, rfl,
    hash_string_is64 input, hash_string_is64 output,
    hash_string_is64 (canonicalDumps (JsonObj.ofList ctx)),
    hash_string_is64 (canonicalDumps (JsonObj.ofList
      [("input_hash", .str (hash_string input)),
       ("output_hash", .str (hash_string output)),
       ("context_hash", .str (hash_dict (JsonObj.ofList ctx))),
       ("metadata", .obj (JsonObj.ofList md))]))⟩

/-- Witness for C1: the spec's golden scenario inputs, with the context
and metadata dictionaries handed over in two insertion orders. -/
theorem compute_audit_hash_correct_witness :
    ([(("environment", Json.str "prod")), ("region", Json.str "eu")].Perm
      [("region", Json.str "eu"), ("environment", Json.str "prod")]) ∧
    (([(("environment", Json.str "prod")), ("region", Json.str "eu")].map Prod.fst).Nodup) ∧
    ([("organization_id", Json.str "org1"), ("user_id", Json.null)].Perm
      [("user_id", Json.null), ("organization_id", Json.str "org1")]) ∧
    (([("organization_id", Json.str "org1"), ("user_id", Json.null)].map Prod.fst).Nodup) ∧
    compute_audit_hash "Hello" "Hi"
        (JsonObj.ofList [("environment", .str "prod"), ("region", .str "eu")])
        (JsonObj.ofList [("organization_id", .str "org1"), ("user_id", .null)]) =
      compute_audit_hash "Hello" "Hi"
        (JsonObj.ofList [("region", .str "eu"), ("environment", .str "prod")])
        (JsonObj.ofList [("user_id", .null), ("organization_id", .str "org1")]) ∧
    is64LowerHex (compute_audit_hash "Hello" "Hi"
        (JsonObj.ofList [("environment", .str "prod"), ("region", .str "eu")])
        (JsonObj.ofList [("organization_id", .str "org1"), ("user_id", .null)])).full_hash :=
  ⟨List.Perm.swap ("region", Json.str "eu") ("environment", Json.str "prod") [],
    by decide,
    List.Perm.swap ("user_id", Json.null) ("organization_id", Json.str "org1") [],
    by decide,
    (compute_audit_hash_correct "Hello" "Hi" _ _ _ _
      (List.Perm.swap ("region", Json.str "eu") ("environment", Json.str "prod") [])
      (by decide)
      (List.Perm.swap ("user_id", Json.null) ("organization_id", Json.str "org1") [])
      (by decide)).1,
    (compute_audit_hash_correct "Hello" "Hi" _ _ _ _
      (List.Perm.swap ("region", Json.str "eu") ("environment", Json.str "prod") [])
      (by decide)
      (List.Perm.swap ("user_id", Json.null) ("organization_id", Json.str "org1") [])
      (by decide)).2.2.2.2.2.2.2.2⟩

/-- Golden digest pin: SHA3-256("Hello"), matching CPython's hashlib. -/
theorem hash_string_golden :
    hash_string "Hello" =
      "8ca66ee6b2fe4bb928a8e3cd2f508de4119c0895f22e011117e22cf9b13de7ef" := by
  decide

/-- Golden canonical serialization pin: key order and separators match
CPython's `json.dumps(..., sort_keys=True, separators=(',', ':'))`. -/
theorem canonicalDumps_golden :
    canonicalDumps (JsonObj.ofList
      [("b", .num 1), ("a", .obj (JsonObj.ofList [("d", .null), ("c", .str "x")]))]) =
      "\x7b\"a\":\x7b\"c\":\"x\",\"d\":null\x7d,\"b\":1\x7d" := by
  decide

/-- The spec's Merkle-of-three scenario: the root over `[A, B, C]` is
`H(H(A||B) || H(C||C))`. -/
theorem rootOf_three (a b c : String) :
    rootOf [a, b, c] = merkle_hash (merkle_hash a b) (merkle_hash c c) :=
  rfl

/-! ### Tombstone round trip (claim C5) -/

/-- What `verify_tombstone` compares on a freshly created tombstone: the
hash recomputed from the store-assigned `created_at` against the stored
hash computed from the captured (and never stored) `deletion_timestamp`. -/
theorem verify_tombstone_create (log : AuditLogRec)
    (requested_by reason legal_basis : String) (retention_until : Nat)
    (deletion_timestamp row_created_at tombstone_id : String) :
    (verify_tombstone (create_tombstone log requested_by reason legal_basis
        retention_until deletion_timestamp row_created_at tombstone_id)).deletion_verified =
      (create_tombstone_hash log.full_hash row_created_at requested_by reason ==
        create_tombstone_hash log.full_hash deletion_timestamp requested_by reason) :=
  rfl

/-- C5: the create-then-verify round trip fails on the code.  The
timestamp hashed at creation (`datetime.utcnow().isoformat()`, a local of
`_create_tombstone`) is stored nowhere; `verify_tombstone` recomputes the
deletion hash from the row's store-assigned `created_at`.  Whenever the
two instants differ — which they do for every real insert, since
`created_at` is a `server_default=func.now()` filled in after the capture
— the recomputed hash differs and `deletion_verified` is `false` for an
unmodified, freshly created tombstone. -/
theorem verify_tombstone_fresh_tombstone_fails :
    (verify_tombstone (create_tombstone sampleLog1 "alice" "user request"
        "Article 17 - Right to erasure" 30
        "2024-01-01T00:00:00" "2024-01-01T00:00:01" "ts1")).deletion_verified = false := by
  rw [verify_tombstone_create]
  decide

end AuditTrailAI
